import Mathlib

/-!
# Patch orchestration engine (`src/patch.go`)

A shallow embedding of `Patch`'s worker `patchWithContext` and of the OS detector
`getOSType` / `getOSVersion`.

Conventions of the embedding.

* Go strings are Lean strings; `strings.Contains` is substring containment on the
  character sequence.
* A Go `error` is a `GoError` value: `errors.New msg` or `fmt.Errorf` with `%w`.
* Calls into other packages (`reference`, `osrelease`, `buildkit`, `pkgmgr`, `report`,
  `vex`, `build`, `os`) are fields of a `Collab` record: the theorems quantify over every
  behaviour of these packages.  The part of `github.com/distribution/reference` that the
  orchestrator's own control flow depends on (the concrete reference types, `IsNameOnly`,
  `TagNameOnly`, `WithTag`, `Name`) is written out in namespace `reference`.
* Sequential code is a `Run`: the list of calls made so far, and how the code ended
  (a value, a returned error, or a run-time panic).
* Logging, deferred clean-up of the working folder, the progress display goroutine and
  the timeout envelope of `Patch` are outside the embedding.
-/

namespace Copa

/-! ## Strings and errors -/

/-- Rune-wise test that `p` starts `s` (`strings.HasPrefix`). -/
def startsWith : List Char → List Char → Bool
  | _, [] => true
  | [], _ :: _ => false
  | c :: s, p :: ps => c == p && startsWith s ps

/-- Substring test on character lists. -/
def containsChars : List Char → List Char → Bool
  | [], sub => startsWith [] sub
  | c :: s, sub => startsWith (c :: s) sub || containsChars s sub

/-- Go `strings.Contains(s, substr)`. -/
def Contains (s substr : String) : Bool := containsChars s.data substr.data

/-- ASCII lower-casing: what `strings.ToLower` does on ASCII text. -/
def lowerAscii (s : String) : String := ⟨s.data.map Char.toLower⟩

/-- Go error values: `errors.New msg`, or `fmt.Errorf` wrapping a cause with `%w`. -/
inductive GoError where
  | new (msg : String)
  | wrap (msg : String) (cause : GoError)
deriving DecidableEq, Repr

/-- The text of an error (`err.Error()`). -/
def GoError.Error : GoError → String
  | .new msg => msg
  | .wrap msg _ => msg

/-- Standard library sentinel `errors.ErrUnsupported = errors.New("unsupported operation")`. -/
def ErrUnsupported : GoError := .new "unsupported operation"

/-- Constant `defaultPatchedTagSuffix` (patch.go line 39). -/
def defaultPatchedTagSuffix : String := "patched"

/-- Constant `copaProduct` (patch.go line 40). -/
def copaProduct : String := "copa"

/-- Constant `defaultRegistry` (patch.go line 41). -/
def defaultRegistry : String := "docker.io"

/-- Constant `defaultTag` (patch.go line 42). -/
def defaultTag : String := "latest"

/-! ## The `reference` package, as far as `patchWithContext` depends on it -/

namespace reference

/-- Library struct `repository`: registry domain and remote path. -/
structure repository where
  domain : String
  path : String
deriving DecidableEq, Repr

/-- Library struct `reference`: the submatches of the reference grammar. -/
structure Fields where
  namedRepository : repository
  tag : String
  digest : String
deriving DecidableEq, Repr

/-- The concrete types behind the library interface `Named`: a bare repository, a
tagged reference, a digest (canonical) reference, or one with both tag and digest. -/
inductive Named where
  | ofRepository (repo : repository)
  | taggedReference (repo : repository) (tag : String)
  | canonicalReference (repo : repository) (digest : String)
  | reference (repo : repository) (tag : String) (digest : String)
deriving DecidableEq, Repr

/-- Method `repository.Name()`: the path alone when there is no domain, else
`domain/path`. -/
def repository.Name (r : repository) : String :=
  if r.domain == "" then r.path else r.domain ++ "/" ++ r.path

/-- The repository part of a named reference. -/
def Named.repo : Named → repository
  | .ofRepository r => r
  | .taggedReference r _ => r
  | .canonicalReference r _ => r
  | .reference r _ _ => r

/-- Method `Name()` of a named reference. -/
def Named.Name (n : Named) : String := n.repo.Name

/-- The type assertion `imageName.(reference.Tagged)`: the tag when the concrete type
has a `Tag()` method. -/
def Named.Tagged : Named → Option String
  | .taggedReference _ t => some t
  | .reference _ t _ => some t
  | _ => none

/-- The type assertion to `Canonical`: the digest when the concrete type has one. -/
def Named.Canonical : Named → Option String
  | .canonicalReference _ d => some d
  | .reference _ _ d => some d
  | _ => none

/-- The library interface `Reference`: a digest without a name, or a named reference. -/
inductive Reference where
  | digestReference (digest : String)
  | named (n : Named)
deriving DecidableEq, Repr

/-- Library function `getBestReferenceType`: picks the concrete type from which of the
name, tag and digest fields are empty; `none` is the nil result. -/
def getBestReferenceType (ref : Fields) : Option Reference :=
  if ref.namedRepository.Name == "" then
    if ref.digest != "" then some (.digestReference ref.digest) else none
  else if ref.tag == "" then
    if ref.digest != "" then some (.named (.canonicalReference ref.namedRepository ref.digest))
    else some (.named (.ofRepository ref.namedRepository))
  else if ref.digest == "" then some (.named (.taggedReference ref.namedRepository ref.tag))
  else some (.named (.reference ref.namedRepository ref.tag ref.digest))

/-- Library function `IsNameOnly`: neither tagged nor canonical. -/
def IsNameOnly (ref : Named) : Bool :=
  match ref.Tagged with
  | some _ => false
  | none =>
    match ref.Canonical with
    | some _ => false
    | none => true

/-- Character class `\w` of the tag grammar. -/
def isWord (c : Char) : Bool := c.isAlphanum || c == '_'

/-- Library regular expression `anchoredTagRegexp`, `^[\w][\w.-]{0,127}$`. -/
def anchoredTagRegexp (tag : String) : Bool :=
  match tag.data with
  | [] => false
  | c :: cs => isWord c && decide (cs.length ≤ 127) && cs.all (fun d => isWord d || d == '.' || d == '-')

/-- Library error `ErrTagInvalidFormat`. -/
def ErrTagInvalidFormat : GoError := .new "invalid tag format"

/-- Library function `WithTag`: rejects a tag outside the tag grammar, otherwise
attaches it, keeping the digest of a canonical reference. -/
def WithTag (name : Named) (tag : String) : Except GoError Named :=
  if !anchoredTagRegexp tag then .error ErrTagInvalidFormat
  else
    match name.Canonical with
    | some d => .ok (.reference name.repo tag d)
    | none => .ok (.taggedReference name.repo tag)

/-- Library constant `defaultTag` of the reference package. -/
def defaultTag : String := "latest"

/-- Library function `TagNameOnly`: adds the default tag to a name-only reference.  The
library panics if `WithTag` rejects the default tag, which it never does; that branch
returns the reference unchanged here. -/
def TagNameOnly (ref : Named) : Named :=
  if IsNameOnly ref then
    match WithTag ref defaultTag with
    | .ok namedTagged => namedTagged
    | .error _ => ref
  else ref

/-- Library invariant of parsed references: a tagged reference has a non-empty tag. -/
def Named.WellFormed (n : Named) : Prop := ∀ t, n.Tagged = some t → t ≠ ""

/-- Method `String()` of a named reference. -/
def Named.String : Named → String
  | .ofRepository r => r.Name
  | .taggedReference r t => r.Name ++ ":" ++ t
  | .canonicalReference r d => r.Name ++ "@" ++ d
  | .reference r t d => r.Name ++ ":" ++ t ++ "@" ++ d

/-! ### Parsing, as a decomposition

`ParseNormalizedNamed` below follows the library's `normalize.go` for the steps written
in Go (`splitDockerDomain`, the identifier and lower-case checks) and replaces the match
against `ReferenceRegexp` by the decomposition its three submatches make of a string the
expression accepts: the digest after `@`, the tag after the `:` of the last path
component, the name before them.  The tag is checked against the tag grammar; rejection
of ill-formed names and digests is not part of it, so the function is meaningful on
references the library accepts.  It is used to run the orchestrator on concrete image
strings; the general theorems quantify over every parser instead. -/

/-- Cuts a character list at the first `sep` (`strings.IndexRune` and slicing). -/
def cut (sep : Char) : List Char → Option (List Char × List Char)
  | [] => none
  | c :: cs =>
    if c == sep then some ([], cs)
    else
      match cut sep cs with
      | some (a, b) => some (c :: a, b)
      | none => none

/-- Cuts a character list at the last `sep`. -/
def cutLast (sep : Char) (s : List Char) : Option (List Char × List Char) :=
  match cut sep s.reverse with
  | some (b, a) => some (a.reverse, b.reverse)
  | none => none

/-- Library constant `legacyDefaultDomain`. -/
def legacyDefaultDomain : String := "index.docker.io"

/-- Library constant `defaultDomain`. -/
def defaultDomain : String := "docker.io"

/-- Library constant `officialRepoPrefix`. -/
def officialRepoPrefix : String := "library/"

/-- Library constant `localhost`. -/
def localhost : String := "localhost"

/-- Library function `splitDockerDomain`: the first path component is the registry
domain when it contains `.` or `:`, is `localhost`, or has an upper-case letter; else the
default domain is used, and a single-component remainder gets the `library/` namespace. -/
def splitDockerDomain (name : String) : String × String :=
  let split : String × String :=
    match cut '/' name.data with
    | none => (defaultDomain, name)
    | some (pre, post) =>
      if !(pre.any (fun c => c == '.' || c == ':')) && String.mk pre != localhost
          && lowerAscii (String.mk pre) == String.mk pre then
        (defaultDomain, name)
      else (String.mk pre, String.mk post)
  let domain := if split.1 == legacyDefaultDomain then defaultDomain else split.1
  let remainder :=
    if domain == defaultDomain && !(split.2.data.any (fun c => c == '/')) then
      officialRepoPrefix ++ split.2
    else split.2
  (domain, remainder)

/-- Library regular expression `anchoredIdentifierRegexp`, `^([a-f0-9]{64})$`. -/
def anchoredIdentifierRegexp (s : String) : Bool :=
  decide (s.data.length = 64) &&
    s.data.all (fun c => c.isDigit || (decide ('a' ≤ c) && decide (c ≤ 'f')))

/-- Library error `ErrReferenceInvalidFormat`. -/
def ErrReferenceInvalidFormat : GoError := .new "invalid reference format"

/-- Library error `ErrNameEmpty`. -/
def ErrNameEmpty : GoError := .new "repository name must have at least one component"

/-- The submatches of `ReferenceRegexp`: name, tag, digest, with the name split into
domain and path at its first `/` (the split of `anchoredNameRegexp`).  The digest is what
follows `@`; the tag is what follows the `:` of the last path component and has to match
the tag grammar, else there is no match (`none`). -/
def submatches (s : String) : Option Fields :=
  let atCut : List Char × List Char :=
    match cut '@' s.data with
    | some (a, d) => (a, d)
    | none => (s.data, [])
  let slashCut : List Char × List Char :=
    match cutLast '/' atCut.1 with
    | some (dir, last) => (dir ++ ['/'], last)
    | none => ([], atCut.1)
  let nameOf (name : List Char) : repository :=
    match cut '/' name with
    | some (d, pth) => ⟨String.mk d, String.mk pth⟩
    | none => ⟨"", String.mk name⟩
  match cut ':' slashCut.2 with
  | some (nm, t) =>
    if anchoredTagRegexp (String.mk t) then
      some ⟨nameOf (slashCut.1 ++ nm), String.mk t, String.mk atCut.2⟩
    else none
  | none => some ⟨nameOf (slashCut.1 ++ slashCut.2), "", String.mk atCut.2⟩

/-- Library function `Parse`, on the decomposition. -/
def Parse (s : String) : Except GoError Reference :=
  match submatches s with
  | none => .error ErrReferenceInvalidFormat
  | some ref =>
    match getBestReferenceType ref with
    | none => .error ErrNameEmpty
    | some r => .ok r

/-- Library function `ParseNormalizedNamed`. -/
def ParseNormalizedNamed (s : String) : Except GoError Named :=
  if anchoredIdentifierRegexp s then
    .error (.new ("invalid repository name (" ++ s ++
      "), cannot specify 64-byte hexadecimal strings"))
  else
    let dr := splitDockerDomain s
    let remote : String :=
      match cut ':' dr.2.data with
      | some (a, _) => String.mk a
      | none => dr.2
    if lowerAscii remote != remote then
      .error (.new ("invalid reference format: repository name (" ++ remote ++
        ") must be lowercase"))
    else
      match Parse (dr.1 ++ "/" ++ dr.2) with
      | .error e => .error e
      | .ok (.named n) => .ok n
      | .ok (.digestReference d) => .error (.new ("reference " ++ d ++ " has no name"))

end reference

/-! ## Data model -/

/-- Raw file contents (`[]byte`). -/
abbrev Bytes := List UInt8

/-- The result of `osrelease.Parse`, a `map[string]string`. -/
abbrev OsData := List (String × String)

/-- Map indexing `m[k]`: the zero value `""` for a missing key. -/
def mapIndex (m : OsData) (k : String) : String := (m.lookup k).getD ""

namespace unversioned

/-- Modelled from the spec: `UpdatePackage` (name, installed version, target fix
version); its declaration is in package `unversioned`, and patch.go reads only `Name`. -/
structure UpdatePackage where
  Name : String
  InstalledVersion : String
  FixedVersion : String
deriving DecidableEq, Repr

/-- Struct `unversioned.OS` (patch.go lines 285-288). -/
structure OS where
  Type_ : String
  Version : String
deriving DecidableEq, Repr

/-- Struct `unversioned.Config` (patch.go lines 289-291). -/
structure Config where
  Arch : String
deriving DecidableEq, Repr

/-- Struct `unversioned.Metadata` (patch.go lines 284-292). -/
structure Metadata where
  OS : Copa.unversioned.OS
  Config : Copa.unversioned.Config
deriving DecidableEq, Repr

/-- Struct `unversioned.UpdateManifest` (patch.go lines 283-294). -/
structure UpdateManifest where
  Metadata : Copa.unversioned.Metadata
  Updates : List UpdatePackage
deriving DecidableEq, Repr

end unversioned

namespace spb

/-- BuildKit source-policy type `Update`, reduced to the field patch.go reads. -/
structure Update where
  Identifier : String
deriving DecidableEq, Repr

/-- BuildKit source-policy type `Rule`; the pointer field `Updates` may be nil. -/
structure Rule where
  Updates : Option Update
deriving DecidableEq, Repr

/-- BuildKit source-policy type `Policy`; `Rules` is a slice of pointers. -/
structure Policy where
  Rules : List (Option Rule)
deriving DecidableEq, Repr

end spb

/-- Container platform (`ocispecs.Platform`), reduced to the fields set here. -/
structure Platform where
  OS : String
  Architecture : String
deriving DecidableEq, Repr

/-! ## Runs: calls made and how the code ended -/

/-- One call made by the orchestrator, with the arguments that are plain data. -/
inductive Event where
  | ParseNormalizedNamed (image : String)
  | MkdirTemp
  | Chmod (path : String)
  | EnsurePath (path : String)
  | TryParseScanReport (reportFile scanner : String)
  | NewClient
  | ReadSourcePolicy
  | Build (patchedImageName product : String)
  | InitializeBuildkitConfig (ref : String)
  | ExtractFileFromState (path : String)
  | getOSType (osreleaseBytes : Bytes)
  | getOSVersion (osreleaseBytes : Bytes)
  | GetPackageManager (osType osVersion workingFolder : String)
  | InstallUpdates (updates : Option unversioned.UpdateManifest) (ignoreError : Bool)
  | Marshal (platform : Platform)
  | Solve
  | TryOutputVexDocument (manifest : unversioned.UpdateManifest)
      (patchedImageName format output : String)
  | send (err : GoError)
deriving DecidableEq, Repr

/-- How a piece of Go code ends: with a value, a returned error, or a run-time panic. -/
inductive Outcome (α : Type) where
  | ok (a : α)
  | err (e : GoError)
  | panic (msg : String)
deriving DecidableEq, Repr

/-- A finished piece of sequential code: its calls in order, and its outcome. -/
structure Run (α : Type) where
  trace : List Event
  out : Outcome α
deriving DecidableEq, Repr

/-- Code that returns a value without calling anything. -/
def Run.pure {α : Type} (a : α) : Run α := ⟨[], .ok a⟩

/-- Sequencing: the rest runs only after a value; an error or a panic ends the run. -/
def Run.bind {α β : Type} (x : Run α) (f : α → Run β) : Run β :=
  match x.out with
  | .ok a => ⟨x.trace ++ (f a).trace, (f a).out⟩
  | .err e => ⟨x.trace, .err e⟩
  | .panic m => ⟨x.trace, .panic m⟩

instance : Monad Run where
  pure := Run.pure
  bind := Run.bind

/-- Outcome of a call returning `(value, error)`. -/
def Outcome.ofExcept {α : Type} : Except GoError α → Outcome α
  | .ok a => .ok a
  | .error e => .err e

/-- A call whose error is returned as it is: `if err != nil { return err }`. -/
def call {α : Type} (ev : Event) (r : Except GoError α) : Run α := ⟨[ev], .ofExcept r⟩

/-- A call inside the build callback, whose error is first sent on the channel and then
returned wrapped by `w`: `if err != nil { ch <- err; return nil, w err }`. -/
def callSend {α : Type} (ev : Event) (r : Except GoError α) (w : GoError → GoError) : Run α :=
  match r with
  | .ok a => ⟨[ev], .ok a⟩
  | .error e => ⟨[ev, .send e], .err (w e)⟩

/-- Statement `return err`. -/
def fail {α : Type} (e : GoError) : Run α := ⟨[], .err e⟩

/-- A run-time panic. -/
def panicWith {α : Type} (msg : String) : Run α := ⟨[], .panic msg⟩

/-- Go run-time message for indexing an empty slice at 0. -/
def indexOutOfRange : String := "runtime error: index out of range [0] with length 0"

/-- Go run-time message for a nil pointer dereference. -/
def nilDereference : String := "runtime error: invalid memory address or nil pointer dereference"

/-! ## Collaborators -/

/-- The two library functions of the OS detector: `osrelease.Parse` and
`strings.ToLower`. -/
structure DetectLib where
  Parse : Bytes → Except GoError OsData
  ToLower : String → String

/-- The other packages `patchWithContext` calls.  The type parameters are the handles
the orchestrator only passes on: build configuration, package manager, LLB state,
marshalled definition and solve result. -/
structure Collab (Config Manager LLBState Definition Result : Type) extends DetectLib where
  /-- Call `reference.ParseNormalizedNamed(image)`. -/
  ParseNormalizedNamed : String → Except GoError reference.Named
  /-- Call `os.MkdirTemp("", "copa-*")`. -/
  MkdirTemp : Except GoError String
  /-- Call `os.Chmod(workingFolder, 0o744)`. -/
  Chmod : String → Except GoError Unit
  /-- Call `utils.EnsurePath(workingFolder, 0o744)`. -/
  EnsurePath : String → Except GoError Bool
  /-- Call `report.TryParseScanReport(reportFile, scanner)`. -/
  TryParseScanReport : String → String → Except GoError unversioned.UpdateManifest
  /-- Call `buildkit.NewClient(ctx, bkOpts)`. -/
  NewClient : Except GoError Unit
  /-- Call `build.ReadSourcePolicy()`; the policy pointer may be nil. -/
  ReadSourcePolicy : Except GoError (Option spb.Policy)
  /-- Call `buildkit.InitializeBuildkitConfig(ctx, c, imageName.String())`. -/
  InitializeBuildkitConfig : String → Except GoError Config
  /-- Call `buildkit.ExtractFileFromState(ctx, c, &config.ImageState, path)`. -/
  ExtractFileFromState : Config → String → Except GoError Bytes
  /-- Call `pkgmgr.GetPackageManager(osType, osVersion, config, workingFolder)`. -/
  GetPackageManager : String → String → Config → String → Except GoError Manager
  /-- Call `manager.InstallUpdates(ctx, updates, ignoreError)`: the patched state and
  the names of the packages that failed. -/
  InstallUpdates : Manager → Option unversioned.UpdateManifest → Bool →
    Except GoError (LLBState × List String)
  /-- Value of `platforms.Normalize(platforms.DefaultSpec())`. -/
  DefaultSpec : Platform
  /-- Call `patchedImageState.Marshal(ctx, llb.Platform(platform))`. -/
  Marshal : LLBState → Platform → Except GoError Definition
  /-- Call `c.Solve(ctx, gwclient.SolveRequest ...)`. -/
  Solve : Definition → Except GoError Result
  /-- Call `res.AddMeta(exptypes.ExporterImageConfigKey, config.ConfigData)`. -/
  AddMeta : Result → Config → Result
  /-- Call `vex.TryOutputVexDocument(manifest, manager, patchedImageName, format, output)`. -/
  TryOutputVexDocument : unversioned.UpdateManifest → Manager → String → String → String →
    Except GoError Unit

/-! ## `getOSType` and `getOSVersion` (patch.go lines 332-377) -/

/-- Function `getOSType`: the if-chain of lines 339-366 on the lower-cased `NAME`. -/
def getOSType (lib : DetectLib) (osreleaseBytes : Bytes) : Except GoError String :=
  match lib.Parse osreleaseBytes with
  | .error err => .error (.wrap ("unable to parse os-release data " ++ err.Error) err)
  | .ok osData =>
    let osType := lib.ToLower (mapIndex osData "NAME")
    if Contains osType "alpine" then .ok "alpine"
    else if Contains osType "debian" then .ok "debian"
    else if Contains osType "ubuntu" then .ok "ubuntu"
    else if Contains osType "amazon" then .ok "amazon"
    else if Contains osType "centos" then .ok "centos"
    else if Contains osType "mariner" then .ok "cbl-mariner"
    else if Contains osType "azure linux" then .ok "azurelinux"
    else if Contains osType "red hat" then .ok "redhat"
    else if Contains osType "rocky" then .ok "rocky"
    else if Contains osType "oracle" then .ok "oracle"
    else if Contains osType "alma" then .ok "alma"
    else .error ErrUnsupported

/-- Function `getOSVersion`: the `VERSION_ID` field, verbatim. -/
def getOSVersion (lib : DetectLib) (osreleaseBytes : Bytes) : Except GoError String :=
  match lib.Parse osreleaseBytes with
  | .error err => .error (.wrap ("unable to parse os-release data " ++ err.Error) err)
  | .ok osData => .ok (mapIndex osData "VERSION_ID")

/-- The ordered pattern table as the specification writes it: pattern, canonical
identifier. -/
def osTypeTable : List (String × String) :=
  [("alpine", "alpine"), ("debian", "debian"), ("ubuntu", "ubuntu"), ("amazon", "amazon"),
   ("centos", "centos"), ("mariner", "cbl-mariner"), ("azure linux", "azurelinux"),
   ("red hat", "redhat"), ("rocky", "rocky"), ("oracle", "oracle"), ("alma", "alma")]

/-- Table lookup as the specification words it: the identifier of the first entry whose
pattern is a substring of the name. -/
def firstMatch (table : List (String × String)) (name : String) : Option String :=
  (table.find? (fun e => Contains name e.1)).map (fun e => e.2)

/-! ## `patchWithContext` (patch.go lines 89-330) -/

section Orchestrator

variable {Config Manager LLBState Definition Result : Type}

/-- Lines 102-121: default a name-only reference to `latest`, read the tag, compute the
output tag.  Returns the reference after defaulting and the output tag. -/
def outputTag (imageName : reference.Named) (patchedTag : String) : reference.Named × String :=
  let imageName :=
    if reference.IsNameOnly imageName then reference.TagNameOnly imageName else imageName
  let tag : String :=
    match imageName.Tagged with
    | some t => t
    | none => ""
  let patchedTag :=
    if patchedTag == "" then
      if tag == "" then defaultPatchedTagSuffix
      else tag ++ "-" ++ defaultPatchedTagSuffix
    else patchedTag
  (imageName, patchedTag)

/-- Lines 98-127: parse the image, compute and validate the output tag, build the
patched image name.  Returns the reference, the output tag and the patched image name. -/
def resolveImage (c : Collab Config Manager LLBState Definition Result)
    (image patchedTag : String) : Run (reference.Named × String × String) := do
  let imageName ← call (.ParseNormalizedNamed image) (c.ParseNormalizedNamed image)
  let r := outputTag imageName patchedTag
  match reference.WithTag r.1 r.2 with
  | .error err => fail (.wrap (err.Error ++ " with patched tag " ++ r.2) err)
  | .ok _ => pure (r.1, r.2, r.1.Name ++ ":" ++ r.2)

/-- Lines 129-145: create or ensure the working folder. -/
def ensureWorkingFolder (c : Collab Config Manager LLBState Definition Result)
    (workingFolder : String) : Run String :=
  if workingFolder == "" then do
    let created ← call .MkdirTemp c.MkdirTemp
    call (.Chmod created) (c.Chmod created)
    pure created
  else do
    let _isNew ← call (.EnsurePath workingFolder) (c.EnsurePath workingFolder)
    pure workingFolder

/-- Lines 147-154: load the update manifest when a report file is named. -/
def loadReport (c : Collab Config Manager LLBState Definition Result)
    (reportFile scanner : String) : Run (Option unversioned.UpdateManifest) :=
  if reportFile != "" then do
    let updates ← call (.TryParseScanReport reportFile scanner)
      (c.TryParseScanReport reportFile scanner)
    pure (some updates)
  else pure none

/-- The expression `solveOpt.SourcePolicy.Rules[0].Updates.Identifier` of lines 193, 197
and 201: indexing an empty slice and dereferencing a nil pointer panic. -/
def firstIdentifier (policy : spb.Policy) : Outcome String :=
  match policy.Rules with
  | [] => .panic indexOutOfRange
  | none :: _ => .panic nilDereference
  | some rule :: _ =>
    match rule.Updates with
    | none => .panic nilDereference
    | some updates => .ok updates.Identifier

/-- Error of line 194. -/
def errRedHat : GoError :=
  .new ("RedHat is not supported via source policies due to BusyBox not being in the RHEL repos\n" ++
    "Please use a different RPM-based image")

/-- Error of line 198. -/
def errRockyLinux : GoError :=
  .new ("RockyLinux is not supported via source policies due to BusyBox not being in the RockyLinux repos\n" ++
    "Please use a different RPM-based image")

/-- Error of line 202. -/
def errAlmaLinux : GoError :=
  .new ("AlmaLinux is not supported via source policies due to BusyBox not being in the AlmaLinux repos\n" ++
    "Please use a different RPM-based image")

/-- Lines 191-206: the admission check on the source policy read at line 187. -/
def checkSourcePolicy (sourcePolicy : Option spb.Policy) : Run Unit :=
  match sourcePolicy with
  | none => pure ()
  | some policy =>
    match firstIdentifier policy with
    | .panic msg => panicWith msg
    | .err e => fail e
    | .ok identifier =>
      if Contains identifier "redhat" then fail errRedHat
      else if Contains identifier "rockylinux" then fail errRockyLinux
      else if Contains identifier "alma" then fail errAlmaLinux
      else pure ()

/-- Lines 219-249: obtain the package manager, from the image's `/etc/os-release` when
no report file is named, from the report's metadata otherwise. -/
def resolveManager (c : Collab Config Manager LLBState Definition Result)
    (reportFile workingFolder : String) (updates : Option unversioned.UpdateManifest)
    (config : Config) : Run Manager :=
  if reportFile == "" then do
    let fileBytes ← callSend (.ExtractFileFromState "/etc/os-release")
      (c.ExtractFileFromState config "/etc/os-release")
      (fun err => .wrap ("unable to extract /etc/os-release file from state " ++ err.Error) err)
    let osType ← callSend (.getOSType fileBytes) (getOSType c.toDetectLib fileBytes) id
    let osVersion ← callSend (.getOSVersion fileBytes) (getOSVersion c.toDetectLib fileBytes) id
    callSend (.GetPackageManager osType osVersion workingFolder)
      (c.GetPackageManager osType osVersion config workingFolder) id
  else
    match updates with
    | none => panicWith nilDereference
    | some u =>
      callSend (.GetPackageManager u.Metadata.OS.Type_ u.Metadata.OS.Version workingFolder)
        (c.GetPackageManager u.Metadata.OS.Type_ u.Metadata.OS.Version config workingFolder) id

/-- Lines 259-262: the normalised host platform with the OS forced to `linux`. -/
def targetPlatform (host : Platform) : Platform :=
  if host.OS != "linux" then { host with OS := "linux" } else host

/-- Lines 252-280: install the updates, marshal the patched state for the target
platform, solve, and attach the image config.  Returns the package manager, the failed
package names and the result. -/
def installAndSolve (c : Collab Config Manager LLBState Definition Result)
    (updates : Option unversioned.UpdateManifest) (ignoreError : Bool)
    (config : Config) (manager : Manager) : Run (Manager × List String × Result) := do
  let installed ← callSend (.InstallUpdates updates ignoreError)
    (c.InstallUpdates manager updates ignoreError) id
  let platform := targetPlatform c.DefaultSpec
  let defn ← callSend (.Marshal platform) (c.Marshal installed.1 platform)
    (fun err => .wrap ("unable to marshal platform definition: " ++ err.Error) err)
  let res ← callSend .Solve (c.Solve defn) id
  pure (manager, installed.2, c.AddMeta res config)

/-- Lines 213-280: the build callback up to the solved result with its image config
attached. -/
def buildStages (c : Collab Config Manager LLBState Definition Result)
    (imageName : reference.Named) (reportFile workingFolder : String)
    (updates : Option unversioned.UpdateManifest) (ignoreError : Bool) :
    Run (Manager × List String × Result) := do
  let config ← callSend (.InitializeBuildkitConfig imageName.String)
    (c.InitializeBuildkitConfig imageName.String) id
  let manager ← resolveManager c reportFile workingFolder updates config
  installAndSolve c updates ignoreError config manager

/-- Lines 283-300: the validated manifest, built by the append loop over the updates. -/
def reconcile (updates : unversioned.UpdateManifest) (errPkgs : List String) :
    unversioned.UpdateManifest :=
  { Metadata :=
      { OS := { Type_ := updates.Metadata.OS.Type_, Version := updates.Metadata.OS.Version },
        Config := { Arch := updates.Metadata.Config.Arch } },
    Updates :=
      updates.Updates.foldl
        (fun validated update =>
          if !(errPkgs.contains update.Name) then validated ++ [update] else validated)
        [] }

/-- Lines 282-308: reconcile the manifest and write the VEX document. -/
def emitVex (c : Collab Config Manager LLBState Definition Result)
    (reportFile format output patchedImageName : String)
    (updates : Option unversioned.UpdateManifest) (manager : Manager)
    (errPkgs : List String) : Run Unit :=
  if reportFile != "" then
    match updates with
    | none => panicWith nilDereference
    | some u =>
      let validatedManifest := reconcile u errPkgs
      if output != "" && decide (validatedManifest.Updates.length > 0) then
        callSend (.TryOutputVexDocument validatedManifest patchedImageName format output)
          (c.TryOutputVexDocument validatedManifest manager patchedImageName format output) id
      else pure ()
  else pure ()

/-- Lines 212-311: the callback handed to `bkClient.Build`. -/
def buildCallback (c : Collab Config Manager LLBState Definition Result)
    (imageName : reference.Named)
    (reportFile workingFolder format output patchedImageName : String)
    (updates : Option unversioned.UpdateManifest) (ignoreError : Bool) : Run Result := do
  let built ← buildStages c imageName reportFile workingFolder updates ignoreError
  emitVex c reportFile format output patchedImageName updates built.1 built.2.1
  pure built.2.2

/-- Lines 98-190: everything before the admission check.  Returns the reference, the
patched image name, the working folder, the manifest and the source policy. -/
def beforePolicyCheck (c : Collab Config Manager LLBState Definition Result)
    (image reportFile patchedTag workingFolder scanner : String) :
    Run (reference.Named × String × String × Option unversioned.UpdateManifest ×
      Option spb.Policy) := do
  let names ← resolveImage c image patchedTag
  let folder ← ensureWorkingFolder c workingFolder
  let updates ← loadReport c reportFile scanner
  call .NewClient c.NewClient
  let sourcePolicy ← call .ReadSourcePolicy c.ReadSourcePolicy
  pure (names.1, names.2.2, folder, updates, sourcePolicy)

/-- Function `patchWithContext`: the build task, with `bkClient.Build` running the
callback once. -/
def patchWithContext (c : Collab Config Manager LLBState Definition Result)
    (image reportFile patchedTag workingFolder scanner format output : String)
    (ignoreError : Bool) : Run Unit := do
  let s ← beforePolicyCheck c image reportFile patchedTag workingFolder scanner
  checkSourcePolicy s.2.2.2.2
  call (.Build s.2.1 copaProduct) (.ok ())
  let _res ← buildCallback c s.1 reportFile s.2.2.1 format output s.2.1 s.2.2.2.1 ignoreError
  pure ()

/-- Calls that belong to building: `bkClient.Build`, every call of its callback, and
the error hand-over of the callback. -/
def Event.isBuildWork : Event → Bool
  | .Build _ _ => true
  | .InitializeBuildkitConfig _ => true
  | .ExtractFileFromState _ => true
  | .getOSType _ => true
  | .getOSVersion _ => true
  | .GetPackageManager _ _ _ => true
  | .InstallUpdates _ _ => true
  | .Marshal _ => true
  | .Solve => true
  | .TryOutputVexDocument _ _ _ _ => true
  | .send _ => true
  | _ => false

/-- Calls of the OS detector on the live image. -/
def Event.isDetection : Event → Bool
  | .ExtractFileFromState _ => true
  | .getOSType _ => true
  | .getOSVersion _ => true
  | _ => false

/-- Calls of the VEX emitter. -/
def Event.isVex : Event → Bool
  | .TryOutputVexDocument _ _ _ _ => true
  | _ => false

/-- The `(osType, osVersion)` arguments of a package-manager factory call. -/
def Event.factoryArgs : Event → Option (String × String)
  | .GetPackageManager osType osVersion _ => some (osType, osVersion)
  | _ => none

/-- The `(osType, osVersion)` pairs handed to the package-manager factory in a trace. -/
def resolvedOS (trace : List Event) : List (String × String) :=
  trace.filterMap Event.factoryArgs

/-- The image names handed to `bkClient.Build` as export name in a trace. -/
def exportNames (trace : List Event) : List String :=
  trace.filterMap (fun ev =>
    match ev with
    | .Build patchedImageName _ => some patchedImageName
    | _ => none)

/-- Calls made by the build callback. -/
def Event.inCallback : Event → Bool
  | .Build _ _ => false
  | ev => ev.isBuildWork

/-- Every call of a run satisfies `P`. -/
def Run.All {α : Type} (P : Event → Prop) (x : Run α) : Prop := ∀ ev ∈ x.trace, P ev

end Orchestrator

/-! ## Concrete scenarios -/

/-- A run environment in which every collaborator succeeds: the image's os-release
parses to `osData`, the report loader returns `report`, the policy reader returns
`policy`, and the package manager reports `failed` as the packages it could not
update.  Image references go through `reference.ParseNormalizedNamed`. -/
def scenario (osData : OsData) (report : unversioned.UpdateManifest)
    (policy : Option spb.Policy) (failed : List String) : Collab Unit Unit Unit Unit Unit where
  Parse := fun _ => .ok osData
  ToLower := lowerAscii
  ParseNormalizedNamed := reference.ParseNormalizedNamed
  MkdirTemp := .ok "/tmp/copa-1"
  Chmod := fun _ => .ok ()
  EnsurePath := fun _ => .ok true
  TryParseScanReport := fun _ _ => .ok report
  NewClient := .ok ()
  ReadSourcePolicy := .ok policy
  InitializeBuildkitConfig := fun _ => .ok ()
  ExtractFileFromState := fun _ _ => .ok []
  GetPackageManager := fun _ _ _ _ => .ok ()
  InstallUpdates := fun _ _ _ => .ok ((), failed)
  DefaultSpec := ⟨"linux", "amd64"⟩
  Marshal := fun _ _ => .ok ()
  Solve := fun _ => .ok ()
  AddMeta := fun r _ => r
  TryOutputVexDocument := fun _ _ _ _ _ => .ok ()

/-- An os-release of an Ubuntu image. -/
def ubuntuRelease : OsData := [("NAME", "Ubuntu"), ("VERSION_ID", "22.04")]

/-- An os-release of an Alpine image. -/
def alpineRelease : OsData := [("NAME", "Alpine Linux"), ("VERSION_ID", "3.18.4")]

/-- An os-release of a Fedora image, a distribution outside the table. -/
def fedoraRelease : OsData := [("NAME", "Fedora Linux"), ("VERSION_ID", "39")]

/-- An os-release of a Gentoo image, a distribution outside the table. -/
def gentooRelease : OsData := [("NAME", "Gentoo"), ("VERSION_ID", "2.14")]

/-- A report for a Debian image with three updates. -/
def debianReport : unversioned.UpdateManifest :=
  { Metadata := { OS := { Type_ := "debian", Version := "11.6" }, Config := { Arch := "amd64" } },
    Updates := [⟨"openssl", "1.1.1n-0", "1.1.1w-0"⟩, ⟨"curl", "7.74.0-1", "7.74.0-1.3"⟩,
      ⟨"zlib1g", "1.2.11", "1.2.13"⟩] }

/-- A report that lists one package twice, once for each of two fixes. -/
def repeatedReport : unversioned.UpdateManifest :=
  { Metadata := { OS := { Type_ := "debian", Version := "11.6" }, Config := { Arch := "amd64" } },
    Updates := [⟨"openssl", "1.1.1n-0", "1.1.1t-0"⟩, ⟨"openssl", "1.1.1n-0", "1.1.1w-0"⟩] }

/-- A source policy whose first rule pins Ubuntu and whose second rule names a RedHat
image. -/
def redhatSecondPolicy : spb.Policy :=
  { Rules := [some ⟨some ⟨"docker-image://docker.io/library/ubuntu:22.04"⟩⟩,
      some ⟨some ⟨"docker-image://registry.access.redhat.com/ubi8/ubi:latest"⟩⟩] }

/-- A source policy whose first rule names a RockyLinux image. -/
def rockyFirstPolicy : spb.Policy :=
  { Rules := [some ⟨some ⟨"docker-image://docker.io/rockylinux/rockylinux:9"⟩⟩] }

/-- A source policy without rules, as decoded from the JSON document `{}`. -/
def emptyPolicy : spb.Policy := { Rules := [] }

/-- A source policy whose only rule has no `updates` section. -/
def noUpdatesPolicy : spb.Policy := { Rules := [some ⟨none⟩] }

/-- A digest reference to an Ubuntu image. -/
def ubuntuByDigest : String :=
  "ubuntu@sha256:aabed3296a3d45cede1dc866a24476c4d7e093aa806263c27ddaadbdce3c1054"

/-! ## Lemmas on strings, references and runs -/

theorem startsWith_nil (s : List Char) : startsWith s [] = true := by
  cases s <;> rfl

theorem bind_eq {α β : Type} (x : Run α) (f : α → Run β) : (x >>= f) = Run.bind x f := rfl

theorem pure_eq {α : Type} (a : α) : (pure a : Run α) = Run.pure a := rfl

theorem anchoredTagRegexp_defaultTag : reference.anchoredTagRegexp reference.defaultTag = true := by
  rfl

theorem tagNameOnly_eq (n : reference.Named) (h : reference.IsNameOnly n = true) :
    reference.TagNameOnly n = .taggedReference n.repo reference.defaultTag := by
  cases n <;> simp_all [reference.IsNameOnly, reference.Named.Tagged, reference.Named.Canonical]
  simp [reference.TagNameOnly, reference.IsNameOnly, reference.Named.Tagged,
    reference.Named.Canonical, reference.WithTag, anchoredTagRegexp_defaultTag,
    reference.Named.repo]

theorem outputTag_name (n : reference.Named) (patchedTag : String) :
    (outputTag n patchedTag).1.Name = n.Name := by
  unfold outputTag
  by_cases h : reference.IsNameOnly n = true
  · simp [h, tagNameOnly_eq n h, reference.Named.Name, reference.Named.repo]
  · simp [h]

theorem getBestReferenceType_wellFormed (ref : reference.Fields) (n : reference.Named)
    (h : reference.getBestReferenceType ref = some (.named n)) : n.WellFormed := by
  unfold reference.getBestReferenceType at h
  intro t ht
  split_ifs at h <;> simp at h <;> subst h <;>
    simp [reference.Named.Tagged] at ht <;> subst ht <;> simp_all

theorem withTag_wellFormed (n m : reference.Named) (tag : String)
    (h : reference.WithTag n tag = .ok m) : m.WellFormed := by
  unfold reference.WithTag at h
  intro t ht
  split_ifs at h with h1
  have hne : tag ≠ "" := by
    rintro rfl
    simp [reference.anchoredTagRegexp] at h1
  cases hc : n.Canonical <;> simp [hc] at h <;> subst h <;>
    simp [reference.Named.Tagged] at ht <;> subst ht <;> exact hne

theorem bind_trace_ok {α β : Type} (x : Run α) (f : α → Run β) (a : α) (h : x.out = .ok a) :
    (x >>= f).trace = x.trace ++ (f a).trace := by
  simp [bind_eq, Run.bind, h]

theorem bind_out_ok {α β : Type} (x : Run α) (f : α → Run β) (a : α) (h : x.out = .ok a) :
    (x >>= f).out = (f a).out := by
  simp [bind_eq, Run.bind, h]

theorem bind_err {α β : Type} (x : Run α) (f : α → Run β) (e : GoError) (h : x.out = .err e) :
    (x >>= f) = ⟨x.trace, .err e⟩ := by
  simp [bind_eq, Run.bind, h]

theorem bind_panic {α β : Type} (x : Run α) (f : α → Run β) (m : String)
    (h : x.out = .panic m) : (x >>= f) = ⟨x.trace, .panic m⟩ := by
  simp [bind_eq, Run.bind, h]

theorem bind_out_ok_iff {α β : Type} (x : Run α) (f : α → Run β) (b : β) :
    (x >>= f).out = .ok b ↔ ∃ a, x.out = .ok a ∧ (f a).out = .ok b := by
  cases h : x.out with
  | ok a => simp [bind_eq, Run.bind, h]
  | err e => simp [bind_eq, Run.bind, h]
  | panic m => simp [bind_eq, Run.bind, h]

theorem mem_bind_trace {α β : Type} (x : Run α) (f : α → Run β) (ev : Event) :
    ev ∈ (x >>= f).trace ↔ ev ∈ x.trace ∨ ∃ a, x.out = .ok a ∧ ev ∈ (f a).trace := by
  cases h : x.out with
  | ok a => simp [bind_eq, Run.bind, h]
  | err e => simp [bind_eq, Run.bind, h]
  | panic m => simp [bind_eq, Run.bind, h]

theorem all_bind {α β : Type} (P : Event → Prop) (x : Run α) (f : α → Run β)
    (hx : x.All P) (hf : ∀ a, x.out = .ok a → (f a).All P) : (x >>= f).All P := by
  intro ev hev
  rcases (mem_bind_trace x f ev).1 hev with h | ⟨a, ha, h⟩
  · exact hx ev h
  · exact hf a ha ev h

theorem all_pure {α : Type} (P : Event → Prop) (a : α) : (pure a : Run α).All P := by
  intro ev hev
  simp [pure_eq, Run.pure] at hev

theorem all_fail {α : Type} (P : Event → Prop) (e : GoError) : (fail e : Run α).All P := by
  intro ev hev
  simp [fail] at hev

theorem all_panicWith {α : Type} (P : Event → Prop) (m : String) :
    (panicWith m : Run α).All P := by
  intro ev hev
  simp [panicWith] at hev

theorem all_call {α : Type} (P : Event → Prop) (ev : Event) (r : Except GoError α)
    (h : P ev) : (call ev r).All P := by
  intro e he
  simp [call] at he
  subst he
  exact h

theorem all_callSend {α : Type} (P : Event → Prop) (ev : Event) (r : Except GoError α)
    (w : GoError → GoError) (h : P ev) (hs : ∀ e, P (.send e)) : (callSend ev r w).All P := by
  intro e he
  cases r with
  | ok a =>
    simp [callSend] at he
    subst he
    exact h
  | error err =>
    simp [callSend] at he
    rcases he with rfl | rfl
    · exact h
    · exact hs err

theorem callSend_out_ok {α : Type} (ev : Event) (r : Except GoError α) (w : GoError → GoError)
    (a : α) : (callSend ev r w).out = .ok a ↔ r = .ok a := by
  cases r <;> simp [callSend]

theorem call_out_ok {α : Type} (ev : Event) (r : Except GoError α) (a : α) :
    (call ev r).out = .ok a ↔ r = .ok a := by
  cases r <;> simp [call, Outcome.ofExcept]

/-! ## Which calls each stage makes -/

section Stages

variable {Config Manager LLBState Definition Result : Type}

theorem resolveImage_all (c : Collab Config Manager LLBState Definition Result)
    (image patchedTag : String) :
    (resolveImage c image patchedTag).All (fun ev => ev.isBuildWork = false) := by
  unfold resolveImage
  refine all_bind _ _ _ (all_call _ _ _ rfl) (fun a _ => ?_)
  dsimp only
  split
  · exact all_fail _ _
  · exact all_pure _ _

theorem ensureWorkingFolder_all (c : Collab Config Manager LLBState Definition Result)
    (workingFolder : String) :
    (ensureWorkingFolder c workingFolder).All (fun ev => ev.isBuildWork = false) := by
  unfold ensureWorkingFolder
  split
  · refine all_bind _ _ _ (all_call _ _ _ rfl) (fun a _ => ?_)
    refine all_bind _ _ _ (all_call _ _ _ rfl) (fun _ _ => all_pure _ _)
  · exact all_bind _ _ _ (all_call _ _ _ rfl) (fun _ _ => all_pure _ _)

theorem loadReport_all (c : Collab Config Manager LLBState Definition Result)
    (reportFile scanner : String) :
    (loadReport c reportFile scanner).All (fun ev => ev.isBuildWork = false) := by
  unfold loadReport
  split
  · exact all_bind _ _ _ (all_call _ _ _ rfl) (fun _ _ => all_pure _ _)
  · exact all_pure _ _

theorem beforePolicyCheck_all (c : Collab Config Manager LLBState Definition Result)
    (image reportFile patchedTag workingFolder scanner : String) :
    (beforePolicyCheck c image reportFile patchedTag workingFolder scanner).All
      (fun ev => ev.isBuildWork = false) := by
  unfold beforePolicyCheck
  refine all_bind _ _ _ (resolveImage_all _ _ _) (fun _ _ => ?_)
  refine all_bind _ _ _ (ensureWorkingFolder_all _ _) (fun _ _ => ?_)
  refine all_bind _ _ _ (loadReport_all _ _ _) (fun _ _ => ?_)
  refine all_bind _ _ _ (all_call _ _ _ rfl) (fun _ _ => ?_)
  exact all_bind _ _ _ (all_call _ _ _ rfl) (fun _ _ => all_pure _ _)

theorem checkSourcePolicy_trace (sourcePolicy : Option spb.Policy) :
    (checkSourcePolicy sourcePolicy).trace = [] := by
  unfold checkSourcePolicy
  cases sourcePolicy with
  | none => rfl
  | some policy =>
    dsimp only
    cases firstIdentifier policy with
    | panic m => rfl
    | err e => rfl
    | ok identifier =>
      dsimp only
      split_ifs <;> rfl

theorem resolveManager_all (c : Collab Config Manager LLBState Definition Result)
    (reportFile workingFolder : String) (updates : Option unversioned.UpdateManifest)
    (config : Config) :
    (resolveManager c reportFile workingFolder updates config).All
      (fun ev => ev.inCallback = true ∧ ev.isVex = false) := by
  unfold resolveManager
  split
  · refine all_bind _ _ _ (all_callSend _ _ _ _ ⟨rfl, rfl⟩ (fun _ => ⟨rfl, rfl⟩)) (fun _ _ => ?_)
    refine all_bind _ _ _ (all_callSend _ _ _ _ ⟨rfl, rfl⟩ (fun _ => ⟨rfl, rfl⟩)) (fun _ _ => ?_)
    refine all_bind _ _ _ (all_callSend _ _ _ _ ⟨rfl, rfl⟩ (fun _ => ⟨rfl, rfl⟩)) (fun _ _ => ?_)
    exact all_callSend _ _ _ _ ⟨rfl, rfl⟩ (fun _ => ⟨rfl, rfl⟩)
  · split
    · exact all_panicWith _ _
    · exact all_callSend _ _ _ _ ⟨rfl, rfl⟩ (fun _ => ⟨rfl, rfl⟩)

theorem installAndSolve_all (c : Collab Config Manager LLBState Definition Result)
    (updates : Option unversioned.UpdateManifest) (ignoreError : Bool)
    (config : Config) (manager : Manager) :
    (installAndSolve c updates ignoreError config manager).All
      (fun ev => ev.inCallback = true ∧ ev.isVex = false ∧ ev.isDetection = false ∧
        ev.factoryArgs = none) := by
  unfold installAndSolve
  refine all_bind _ _ _ (all_callSend _ _ _ _ ⟨rfl, rfl, rfl, rfl⟩ (fun _ => ⟨rfl, rfl, rfl, rfl⟩))
    (fun _ _ => ?_)
  refine all_bind _ _ _ (all_callSend _ _ _ _ ⟨rfl, rfl, rfl, rfl⟩ (fun _ => ⟨rfl, rfl, rfl, rfl⟩))
    (fun _ _ => ?_)
  exact all_bind _ _ _ (all_callSend _ _ _ _ ⟨rfl, rfl, rfl, rfl⟩ (fun _ => ⟨rfl, rfl, rfl, rfl⟩))
    (fun _ _ => all_pure _ _)

theorem buildStages_all (c : Collab Config Manager LLBState Definition Result)
    (imageName : reference.Named) (reportFile workingFolder : String)
    (updates : Option unversioned.UpdateManifest) (ignoreError : Bool) :
    (buildStages c imageName reportFile workingFolder updates ignoreError).All
      (fun ev => ev.inCallback = true ∧ ev.isVex = false) := by
  unfold buildStages
  refine all_bind _ _ _ (all_callSend _ _ _ _ ⟨rfl, rfl⟩ (fun _ => ⟨rfl, rfl⟩)) (fun _ _ => ?_)
  refine all_bind _ _ _ (resolveManager_all _ _ _ _ _) (fun _ _ => ?_)
  intro ev hev
  exact ⟨(installAndSolve_all _ _ _ _ _ ev hev).1, (installAndSolve_all _ _ _ _ _ ev hev).2.1⟩

theorem emitVex_all (c : Collab Config Manager LLBState Definition Result)
    (reportFile format output patchedImageName : String)
    (updates : Option unversioned.UpdateManifest) (manager : Manager)
    (errPkgs : List String) :
    (emitVex c reportFile format output patchedImageName updates manager errPkgs).All
      (fun ev => ev.inCallback = true ∧ ev.isDetection = false ∧ ev.factoryArgs = none) := by
  unfold emitVex
  split
  · split
    · exact all_panicWith _ _
    · dsimp only
      split
      · exact all_callSend _ _ _ _ ⟨rfl, rfl, rfl⟩ (fun _ => ⟨rfl, rfl, rfl⟩)
      · exact all_pure _ _
  · exact all_pure _ _

theorem buildCallback_all (c : Collab Config Manager LLBState Definition Result)
    (imageName : reference.Named)
    (reportFile workingFolder format output patchedImageName : String)
    (updates : Option unversioned.UpdateManifest) (ignoreError : Bool) :
    (buildCallback c imageName reportFile workingFolder format output patchedImageName
      updates ignoreError).All (fun ev => ev.inCallback = true) := by
  unfold buildCallback
  refine all_bind _ _ _ (fun ev hev => (buildStages_all _ _ _ _ _ _ ev hev).1) (fun _ _ => ?_)
  exact all_bind _ _ _ (fun ev hev => (emitVex_all _ _ _ _ _ _ _ _ ev hev).1)
    (fun _ _ => all_pure _ _)

theorem emitVex_vex (c : Collab Config Manager LLBState Definition Result)
    (reportFile format output patchedImageName : String)
    (updates : Option unversioned.UpdateManifest) (manager : Manager)
    (errPkgs : List String) (ev : Event) :
    (ev ∈ (emitVex c reportFile format output patchedImageName updates manager
        errPkgs).trace ∧ ev.isVex = true) ↔
      reportFile ≠ "" ∧ output ≠ "" ∧ ∃ u, updates = some u ∧
        0 < (reconcile u errPkgs).Updates.length ∧
        ev = .TryOutputVexDocument (reconcile u errPkgs) patchedImageName format output := by
  unfold emitVex
  by_cases hr : reportFile = ""
  · simp [hr, pure_eq, Run.pure]
  · cases updates with
    | none => simp [hr, panicWith]
    | some u =>
      by_cases ho : output = ""
      · simp [hr, ho, pure_eq, Run.pure]
      · by_cases hl : 0 < (reconcile u errPkgs).Updates.length
        · have hr1 : (reportFile != "") = true := by simp [hr]
          have hcond : (output != "" &&
              decide ((reconcile u errPkgs).Updates.length > 0)) = true := by simp [ho, hl]
          rw [if_pos hr1]
          dsimp only
          rw [if_pos hcond]
          constructor
          · rintro ⟨hmem, hv⟩
            refine ⟨hr, ho, u, rfl, hl, ?_⟩
            cases hres : c.TryOutputVexDocument (reconcile u errPkgs) manager patchedImageName
              format output with
            | ok a =>
              rw [hres] at hmem
              simpa [callSend] using hmem
            | error e =>
              rw [hres] at hmem
              simp only [callSend, List.mem_cons, List.mem_singleton, List.mem_nil_iff,
                or_false] at hmem
              rcases hmem with h | h
              · exact h
              · rw [h] at hv
                simp [Event.isVex] at hv
          · rintro ⟨_, _, u2, hu, _, rfl⟩
            cases hu
            refine ⟨?_, rfl⟩
            cases c.TryOutputVexDocument (reconcile u errPkgs) manager patchedImageName
              format output <;> simp [callSend]
        · simp [hr, ho, hl, pure_eq, Run.pure]

end Stages

/-! ## Output tag and patched image name -/

/-- C1. For every well-formed image reference and caller-supplied output tag: a
non-empty caller tag is the computed output tag, whatever the source tag; with no caller
tag, a reference carrying tag `t` gives `t-patched`, a name-only reference is first
defaulted to tag `latest` and gives `latest-patched`, and a digest-only reference gives
`patched`. -/
theorem outputTag_cases (n : reference.Named) (patchedTag : String) (hwf : n.WellFormed) :
    (patchedTag ≠ "" → (outputTag n patchedTag).2 = patchedTag) ∧
    (patchedTag = "" → ∀ t, n.Tagged = some t → (outputTag n patchedTag).2 = t ++ "-patched") ∧
    (patchedTag = "" → reference.IsNameOnly n = true →
      (outputTag n patchedTag).1.Tagged = some "latest" ∧
        (outputTag n patchedTag).2 = "latest-patched") ∧
    (patchedTag = "" → n.Tagged = none → n.Canonical ≠ none →
      (outputTag n patchedTag).2 = "patched") := by
  refine ⟨?_, ?_, ?_, ?_⟩
  · intro hp
    simp [outputTag, hp]
  · rintro rfl t ht
    have hne : t ≠ "" := hwf t ht
    have hno : reference.IsNameOnly n = false := by simp [reference.IsNameOnly, ht]
    simp [outputTag, hno, ht, hne, defaultPatchedTagSuffix, String.append_assoc]
  · rintro rfl hno
    simp [outputTag, hno, tagNameOnly_eq n hno, reference.Named.Tagged, reference.defaultTag,
      defaultPatchedTagSuffix]
  · rintro rfl ht hc
    have hno : reference.IsNameOnly n = false := by
      cases hcn : n.Canonical with
      | none => exact absurd hcn hc
      | some d => simp [reference.IsNameOnly, ht, hcn]
    simp [outputTag, hno, ht, defaultPatchedTagSuffix]

/-- Witness for C1: the tagged reference `docker.io/library/ubuntu:20.04` with no caller
tag gives `20.04-patched`. -/
theorem outputTag_cases_witness :
    (outputTag (.taggedReference ⟨"docker.io", "library/ubuntu"⟩ "20.04") "").2 =
      "20.04" ++ "-patched" :=
  (outputTag_cases (.taggedReference ⟨"docker.io", "library/ubuntu"⟩ "20.04") ""
    (by intro t ht; simp [reference.Named.Tagged] at ht; subst ht; decide)).2.1 rfl "20.04" rfl

section Naming

variable {Config Manager LLBState Definition Result : Type}

theorem resolveImage_ok (c : Collab Config Manager LLBState Definition Result)
    (image patchedTag : String) (n : reference.Named)
    (hparse : c.ParseNormalizedNamed image = .ok n)
    (v : reference.Named × String × String)
    (hv : (resolveImage c image patchedTag).out = .ok v) :
    v = ((outputTag n patchedTag).1, (outputTag n patchedTag).2,
      n.Name ++ ":" ++ (outputTag n patchedTag).2) := by
  unfold resolveImage at hv
  rw [bind_out_ok _ _ n (by simp [call, hparse, Outcome.ofExcept])] at hv
  dsimp only at hv
  split at hv
  · simp [fail] at hv
  · simp [pure_eq, Run.pure] at hv
    rw [← hv, outputTag_name]

theorem beforePolicyCheck_name (c : Collab Config Manager LLBState Definition Result)
    (image reportFile patchedTag workingFolder scanner : String) (n : reference.Named)
    (hparse : c.ParseNormalizedNamed image = .ok n)
    (s : reference.Named × String × String × Option unversioned.UpdateManifest ×
      Option spb.Policy)
    (hs : (beforePolicyCheck c image reportFile patchedTag workingFolder scanner).out = .ok s) :
    s.2.1 = n.Name ++ ":" ++ (outputTag n patchedTag).2 := by
  unfold beforePolicyCheck at hs
  obtain ⟨names, hnames, hs⟩ := (bind_out_ok_iff _ _ _).1 hs
  obtain ⟨folder, _, hs⟩ := (bind_out_ok_iff _ _ _).1 hs
  obtain ⟨updates, _, hs⟩ := (bind_out_ok_iff _ _ _).1 hs
  obtain ⟨_, _, hs⟩ := (bind_out_ok_iff _ _ _).1 hs
  obtain ⟨policy, _, hs⟩ := (bind_out_ok_iff _ _ _).1 hs
  simp [pure_eq, Run.pure] at hs
  rw [← hs, resolveImage_ok c image patchedTag n hparse names hnames]

/-- C5 (amended). For every image reference the parser accepts as `n`, when the output
tag passes `WithTag` the patched image name is `n.Name() ++ ":" ++ <output tag>`, where
`n.Name()` is the normalised repository name `domain/path` of the parsed reference; and
every name handed to `bkClient.Build` as export name is that string. -/
theorem patchedImageName_normalized (c : Collab Config Manager LLBState Definition Result)
    (image reportFile patchedTag workingFolder scanner format output : String)
    (ignoreError : Bool) (n accepted : reference.Named)
    (hparse : c.ParseNormalizedNamed image = .ok n)
    (htag : reference.WithTag (outputTag n patchedTag).1 (outputTag n patchedTag).2 =
      .ok accepted) :
    (resolveImage c image patchedTag).out =
        .ok ((outputTag n patchedTag).1, (outputTag n patchedTag).2,
          n.repo.Name ++ ":" ++ (outputTag n patchedTag).2) ∧
      ∀ name ∈ exportNames (patchWithContext c image reportFile patchedTag workingFolder
          scanner format output ignoreError).trace,
        name = n.repo.Name ++ ":" ++ (outputTag n patchedTag).2 := by
  constructor
  · unfold resolveImage
    rw [bind_out_ok _ _ n (by simp [call, hparse, Outcome.ofExcept])]
    simp only [htag, pure_eq, Run.pure, outputTag_name]
    rfl
  · intro name hname
    simp only [exportNames, List.mem_filterMap] at hname
    obtain ⟨ev, hev, hnm⟩ := hname
    unfold patchWithContext at hev
    rcases (mem_bind_trace _ _ ev).1 hev with h | ⟨s, hs, h⟩
    · have := beforePolicyCheck_all c image reportFile patchedTag workingFolder scanner ev h
      cases ev <;> simp [Event.isBuildWork] at this hnm
    · rcases (mem_bind_trace _ _ ev).1 h with h | ⟨_, _, h⟩
      · simp [checkSourcePolicy_trace] at h
      · rcases (mem_bind_trace _ _ ev).1 h with h | ⟨_, _, h⟩
        · simp [call] at h
          subst h
          simp at hnm
          rw [← hnm]
          exact beforePolicyCheck_name c image reportFile patchedTag workingFolder scanner n
            hparse s hs
        · rcases (mem_bind_trace _ _ ev).1 h with h | ⟨_, _, h⟩
          · have := buildCallback_all _ _ _ _ _ _ _ _ _ ev h
            cases ev <;> simp [Event.inCallback, Event.isBuildWork] at this hnm
          · simp [pure_eq, Run.pure] at h

end Naming

/-- Witness for C5: under the reference parser of the library, the digest reference to
`ubuntu` is handed to the export as `docker.io/library/ubuntu:patched`. -/
theorem patchedImageName_normalized_witness :
    (resolveImage (scenario ubuntuRelease debianReport none []) ubuntuByDigest "").out =
        .ok ((outputTag (.canonicalReference ⟨"docker.io", "library/ubuntu"⟩
            "sha256:aabed3296a3d45cede1dc866a24476c4d7e093aa806263c27ddaadbdce3c1054") "").1,
          (outputTag (.canonicalReference ⟨"docker.io", "library/ubuntu"⟩
            "sha256:aabed3296a3d45cede1dc866a24476c4d7e093aa806263c27ddaadbdce3c1054") "").2,
          (⟨"docker.io", "library/ubuntu"⟩ : reference.repository).Name ++ ":" ++
            (outputTag (.canonicalReference ⟨"docker.io", "library/ubuntu"⟩
              "sha256:aabed3296a3d45cede1dc866a24476c4d7e093aa806263c27ddaadbdce3c1054") "").2) ∧
      ∀ name ∈ exportNames (patchWithContext (scenario ubuntuRelease debianReport none [])
          ubuntuByDigest "" "" "" "trivy" "openvex" "" false).trace,
        name = (⟨"docker.io", "library/ubuntu"⟩ : reference.repository).Name ++ ":" ++
          (outputTag (.canonicalReference ⟨"docker.io", "library/ubuntu"⟩
            "sha256:aabed3296a3d45cede1dc866a24476c4d7e093aa806263c27ddaadbdce3c1054") "").2 :=
  patchedImageName_normalized (scenario ubuntuRelease debianReport none []) ubuntuByDigest
    "" "" "" "trivy" "openvex" "" false
    (.canonicalReference ⟨"docker.io", "library/ubuntu"⟩
      "sha256:aabed3296a3d45cede1dc866a24476c4d7e093aa806263c27ddaadbdce3c1054")
    (.reference ⟨"docker.io", "library/ubuntu"⟩ "patched"
      "sha256:aabed3296a3d45cede1dc866a24476c4d7e093aa806263c27ddaadbdce3c1054")
    rfl rfl

/-- Counterexample to C5 as stated: with no output tag, `ubuntu:20.04` is exported as
`docker.io/library/ubuntu:20.04-patched`, not `ubuntu:20.04-patched`, and the digest
reference as `docker.io/library/ubuntu:patched`, not `ubuntu:patched`; the repository is
the normalised one, not the one given. -/
theorem patchedImageName_as_given_counterexample :
    exportNames (patchWithContext (scenario ubuntuRelease debianReport none [])
        "ubuntu:20.04" "" "" "" "trivy" "openvex" "" false).trace =
      ["docker.io/library/ubuntu:20.04-patched"] ∧
    exportNames (patchWithContext (scenario ubuntuRelease debianReport none [])
        ubuntuByDigest "" "" "" "trivy" "openvex" "" false).trace =
      ["docker.io/library/ubuntu:patched"] ∧
    "docker.io/library/ubuntu:20.04-patched" ≠ "ubuntu:20.04-patched" ∧
    "docker.io/library/ubuntu:patched" ≠ "ubuntu:patched" := by
  refine ⟨by rfl, by rfl, by decide, by decide⟩

/-! ## OS detection -/

theorem firstMatch_nil (name : String) : firstMatch [] name = none := rfl

theorem firstMatch_cons (pattern osType : String) (rest : List (String × String))
    (name : String) :
    firstMatch ((pattern, osType) :: rest) name =
      if Contains name pattern = true then some osType else firstMatch rest name := by
  unfold firstMatch
  rw [List.find?_cons]
  cases Contains name pattern <;> rfl

theorem chain_eq_firstMatch (name : String) :
    (if Contains name "alpine" then (Except.ok "alpine" : Except GoError String)
    else if Contains name "debian" then .ok "debian"
    else if Contains name "ubuntu" then .ok "ubuntu"
    else if Contains name "amazon" then .ok "amazon"
    else if Contains name "centos" then .ok "centos"
    else if Contains name "mariner" then .ok "cbl-mariner"
    else if Contains name "azure linux" then .ok "azurelinux"
    else if Contains name "red hat" then .ok "redhat"
    else if Contains name "rocky" then .ok "rocky"
    else if Contains name "oracle" then .ok "oracle"
    else if Contains name "alma" then .ok "alma"
    else .error ErrUnsupported) =
      match firstMatch osTypeTable name with
      | some osType => .ok osType
      | none => .error ErrUnsupported := by
  unfold osTypeTable
  iterate 11 rw [firstMatch_cons]
  rw [firstMatch_nil]
  iterate 11 (
    cases Contains name _
    all_goals simp only [Bool.false_eq_true, if_false, if_true] )

theorem getOSType_eq_firstMatch (lib : DetectLib) (osreleaseBytes : Bytes) (osData : OsData)
    (hparse : lib.Parse osreleaseBytes = .ok osData) :
    getOSType lib osreleaseBytes =
      match firstMatch osTypeTable (lib.ToLower (mapIndex osData "NAME")) with
      | some osType => .ok osType
      | none => .error ErrUnsupported := by
  unfold getOSType
  rw [hparse]
  exact chain_eq_firstMatch (lib.ToLower (mapIndex osData "NAME"))

theorem firstMatch_eq_none (table : List (String × String)) (name : String) :
    firstMatch table name = none ↔ ∀ e ∈ table, Contains name e.1 = false := by
  simp [firstMatch, List.find?_eq_none]

/-- C2. For every release descriptor that parses, `getOSType` returns the canonical
identifier of the first entry of the ordered table whose pattern is a substring of the
lower-cased `NAME`; it fails if and only if no pattern is a substring; and two
descriptors whose names lower-case to the same string get the same result. -/
theorem getOSType_table (lib : DetectLib) (osreleaseBytes : Bytes) (osData : OsData)
    (hparse : lib.Parse osreleaseBytes = .ok osData) :
    (getOSType lib osreleaseBytes =
      match firstMatch osTypeTable (lib.ToLower (mapIndex osData "NAME")) with
      | some osType => .ok osType
      | none => .error ErrUnsupported) ∧
    ((∃ err, getOSType lib osreleaseBytes = .error err) ↔
      ∀ e ∈ osTypeTable, Contains (lib.ToLower (mapIndex osData "NAME")) e.1 = false) ∧
    (∀ otherBytes otherData, lib.Parse otherBytes = .ok otherData →
      lib.ToLower (mapIndex otherData "NAME") = lib.ToLower (mapIndex osData "NAME") →
      getOSType lib otherBytes = getOSType lib osreleaseBytes) := by
  refine ⟨getOSType_eq_firstMatch lib osreleaseBytes osData hparse, ?_, ?_⟩
  · rw [getOSType_eq_firstMatch lib osreleaseBytes osData hparse, ← firstMatch_eq_none]
    cases firstMatch osTypeTable (lib.ToLower (mapIndex osData "NAME")) <;> simp
  · intro otherBytes otherData hother hsame
    rw [getOSType_eq_firstMatch lib osreleaseBytes osData hparse,
      getOSType_eq_firstMatch lib otherBytes otherData hother, hsame]

/-- Witness for C2: an os-release with `NAME` `Ubuntu` is detected as `ubuntu`. -/
theorem getOSType_table_witness :
    getOSType (scenario ubuntuRelease debianReport none []).toDetectLib [] =
      match firstMatch osTypeTable (lowerAscii (mapIndex ubuntuRelease "NAME")) with
      | some osType => .ok osType
      | none => .error ErrUnsupported :=
  (getOSType_table (scenario ubuntuRelease debianReport none []).toDetectLib []
    ubuntuRelease rfl).1

/-- C7 (amended). For every release descriptor whose lower-cased `NAME` matches no
pattern of the table, `getOSType` fails with the fixed sentinel `errors.ErrUnsupported`,
whose text is `unsupported operation` whatever the name. -/
theorem getOSType_unsupported (lib : DetectLib) (osreleaseBytes : Bytes) (osData : OsData)
    (hparse : lib.Parse osreleaseBytes = .ok osData)
    (hnone : ∀ e ∈ osTypeTable, Contains (lib.ToLower (mapIndex osData "NAME")) e.1 = false) :
    getOSType lib osreleaseBytes = .error ErrUnsupported ∧
      ErrUnsupported.Error = "unsupported operation" := by
  refine ⟨?_, rfl⟩
  rw [getOSType_eq_firstMatch lib osreleaseBytes osData hparse,
    (firstMatch_eq_none _ _).2 hnone]

/-- Witness for C7: an os-release with `NAME` `Fedora Linux`. -/
theorem getOSType_unsupported_witness :
    getOSType (scenario fedoraRelease debianReport none []).toDetectLib [] =
        .error ErrUnsupported ∧
      ErrUnsupported.Error = "unsupported operation" :=
  getOSType_unsupported (scenario fedoraRelease debianReport none []).toDetectLib []
    fedoraRelease rfl (by decide)

/-- Counterexample to C7 as stated: the descriptors named `Fedora Linux` and `Gentoo`
fail with one and the same error value, whose text contains neither name, so the error
does not identify the offending name. -/
theorem getOSType_error_carries_name_counterexample :
    getOSType (scenario fedoraRelease debianReport none []).toDetectLib [] =
        .error (.new "unsupported operation") ∧
    getOSType (scenario gentooRelease debianReport none []).toDetectLib [] =
        .error (.new "unsupported operation") ∧
    mapIndex fedoraRelease "NAME" = "Fedora Linux" ∧
    mapIndex gentooRelease "NAME" = "Gentoo" ∧
    Contains (GoError.new "unsupported operation").Error "Fedora Linux" = false ∧
    Contains (GoError.new "unsupported operation").Error "fedora linux" = false ∧
    Contains (GoError.new "unsupported operation").Error "Gentoo" = false := by
  refine ⟨by rfl, by rfl, by rfl, by rfl, by rfl, by rfl, by rfl⟩

/-! ## Manifest reconciliation -/

theorem foldl_append_filter (errPkgs : List String) (updates acc : List unversioned.UpdatePackage) :
    updates.foldl
        (fun validated update =>
          if !(errPkgs.contains update.Name) then validated ++ [update] else validated) acc =
      acc ++ updates.filter (fun p => !(errPkgs.contains p.Name)) := by
  induction updates generalizing acc with
  | nil => simp
  | cons u us ih =>
    rw [List.foldl_cons, ih, List.filter_cons]
    cases errPkgs.contains u.Name <;> simp

theorem reconcile_updates (updates : unversioned.UpdateManifest) (errPkgs : List String) :
    (reconcile updates errPkgs).Updates =
      updates.Updates.filter (fun p => !(errPkgs.contains p.Name)) := by
  simp only [reconcile, foldl_append_filter, List.nil_append]

theorem countP_or_disjoint {α : Type} (l : List α) (p q : α → Bool)
    (h : ∀ a, p a = true → q a = false) :
    l.countP (fun a => p a || q a) = l.countP p + l.countP q := by
  induction l with
  | nil => simp
  | cons a as ih =>
    simp only [List.countP_cons, ih]
    cases hp : p a
    · cases hq : q a <;> simp
      omega
    · simp [h a hp]
      omega

theorem countP_failed (updates : List unversioned.UpdatePackage) (errPkgs : List String)
    (hnodup : errPkgs.Nodup)
    (hone : ∀ name ∈ errPkgs, updates.countP (fun p => p.Name == name) = 1) :
    updates.countP (fun p => errPkgs.contains p.Name) = errPkgs.length := by
  induction errPkgs with
  | nil => simp
  | cons e es ih =>
    have hne : e ∉ es := (List.nodup_cons.1 hnodup).1
    have hsplit : (fun p : unversioned.UpdatePackage => (e :: es).contains p.Name) =
        (fun p => (p.Name == e) || es.contains p.Name) := by
      funext p
      by_cases hp : p.Name = e <;> simp [List.contains_cons, hp]
    rw [hsplit, countP_or_disjoint, hone e (List.mem_cons_self _ _),
      ih (List.nodup_cons.1 hnodup).2 (fun name hn => hone name (List.mem_cons_of_mem _ hn))]
    · simp
      omega
    · intro a ha
      have : a.Name = e := by simpa using ha
      simp [this, hne]

/-- C3 (amended). The reconciled manifest keeps the OS and architecture metadata and
holds exactly the updates whose name is not in the failed-package list, in their
original order; none of its packages is a failed one; its size is `M` minus the number
of updates whose name is in the list.  That number is `N`, the length of the list, when
the failed names are distinct and each is the name of exactly one update. -/
theorem reconcile_spec (updates : unversioned.UpdateManifest) (errPkgs : List String) :
    (reconcile updates errPkgs).Metadata = updates.Metadata ∧
    (reconcile updates errPkgs).Updates =
      updates.Updates.filter (fun p => !(errPkgs.contains p.Name)) ∧
    List.Sublist (reconcile updates errPkgs).Updates updates.Updates ∧
    (∀ p ∈ (reconcile updates errPkgs).Updates, p.Name ∉ errPkgs) ∧
    (reconcile updates errPkgs).Updates.length =
      updates.Updates.length - updates.Updates.countP (fun p => errPkgs.contains p.Name) ∧
    (errPkgs.Nodup →
      (∀ name ∈ errPkgs, updates.Updates.countP (fun p => p.Name == name) = 1) →
      errPkgs.length ≤ updates.Updates.length ∧
        (reconcile updates errPkgs).Updates.length =
          updates.Updates.length - errPkgs.length) := by
  have hlen : (reconcile updates errPkgs).Updates.length +
      updates.Updates.countP (fun p => errPkgs.contains p.Name) = updates.Updates.length := by
    rw [reconcile_updates, ← List.countP_eq_length_filter,
      List.length_eq_countP_add_countP (fun p => errPkgs.contains p.Name) updates.Updates,
      Nat.add_comm]
    congr 1
    apply List.countP_congr
    intro p _
    simp
  refine ⟨rfl, reconcile_updates _ _, ?_, ?_, by omega, ?_⟩
  · rw [reconcile_updates]
    exact List.filter_sublist _
  · intro p hp
    rw [reconcile_updates, List.mem_filter] at hp
    simpa using hp.2
  · intro hnodup hone
    rw [countP_failed updates.Updates errPkgs hnodup hone] at hlen
    omega

/-- Witness for C3: of the three updates of the Debian report, `curl` failed; the two
others remain. -/
theorem reconcile_spec_witness :
    [("curl" : String)].length ≤ debianReport.Updates.length ∧
      (reconcile debianReport ["curl"]).Updates.length = debianReport.Updates.length - 1 :=
  (reconcile_spec debianReport ["curl"]).2.2.2.2.2 (by decide) (by decide)

/-- Counterexample to C3 as stated: a report listing `openssl` twice and one failed name
`openssl` give `M = 2`, `N = 1` and an empty reconciled manifest, not `M - N = 1`
packages; and a failed name that is no update of the report removes nothing, leaving
3 packages, not `3 - 1`. -/
theorem reconcile_count_counterexample :
    repeatedReport.Updates.length = 2 ∧
    (reconcile repeatedReport ["openssl"]).Updates.length = 0 ∧
    (reconcile repeatedReport ["openssl"]).Updates.length ≠
      repeatedReport.Updates.length - ["openssl"].length ∧
    (reconcile debianReport ["bash"]).Updates.length = 3 ∧
    (reconcile debianReport ["bash"]).Updates.length ≠
      debianReport.Updates.length - ["bash"].length := by
  refine ⟨by rfl, by rfl, by decide, by rfl, by decide⟩

/-! ## Source-policy admission check -/

section Admission

variable {Config Manager LLBState Definition Result : Type}

theorem beforePolicyCheck_policy (c : Collab Config Manager LLBState Definition Result)
    (image reportFile patchedTag workingFolder scanner : String)
    (s : reference.Named × String × String × Option unversioned.UpdateManifest ×
      Option spb.Policy)
    (hs : (beforePolicyCheck c image reportFile patchedTag workingFolder scanner).out = .ok s) :
    c.ReadSourcePolicy = .ok s.2.2.2.2 := by
  unfold beforePolicyCheck at hs
  obtain ⟨names, _, hs⟩ := (bind_out_ok_iff _ _ _).1 hs
  obtain ⟨folder, _, hs⟩ := (bind_out_ok_iff _ _ _).1 hs
  obtain ⟨updates, _, hs⟩ := (bind_out_ok_iff _ _ _).1 hs
  obtain ⟨_, _, hs⟩ := (bind_out_ok_iff _ _ _).1 hs
  obtain ⟨policy, hpolicy, hs⟩ := (bind_out_ok_iff _ _ _).1 hs
  simp [pure_eq, Run.pure] at hs
  rw [← hs]
  exact (call_out_ok _ _ _).1 hpolicy

/-- C4 (amended). When the stages before the admission check succeed and the FIRST rule
of the configured source policy has an update identifier containing `redhat`,
`rockylinux` or `alma`, `patchWithContext` returns the policy error of the first of
these three patterns that matches (its text starts with `RedHat`, `RockyLinux` or
`AlmaLinux`), and it has made no call beyond those of the earlier stages: neither
`bkClient.Build`, nor any call of the build callback or of a package manager. -/
theorem firstRule_rejected (c : Collab Config Manager LLBState Definition Result)
    (image reportFile patchedTag workingFolder scanner format output : String)
    (ignoreError : Bool)
    (s : reference.Named × String × String × Option unversioned.UpdateManifest ×
      Option spb.Policy)
    (policy : spb.Policy) (rule : spb.Rule) (rest : List (Option spb.Rule))
    (updates : spb.Update)
    (hbefore :
      (beforePolicyCheck c image reportFile patchedTag workingFolder scanner).out = .ok s)
    (hread : c.ReadSourcePolicy = .ok (some policy))
    (hrules : policy.Rules = some rule :: rest)
    (hupdates : rule.Updates = some updates)
    (hmatch : Contains updates.Identifier "redhat" = true ∨
      Contains updates.Identifier "rockylinux" = true ∨
      Contains updates.Identifier "alma" = true) :
    (patchWithContext c image reportFile patchedTag workingFolder scanner format output
        ignoreError).out =
      .err (if Contains updates.Identifier "redhat" = true then errRedHat
        else if Contains updates.Identifier "rockylinux" = true then errRockyLinux
        else errAlmaLinux) ∧
    (patchWithContext c image reportFile patchedTag workingFolder scanner format output
        ignoreError).trace =
      (beforePolicyCheck c image reportFile patchedTag workingFolder scanner).trace ∧
    (∀ ev ∈ (patchWithContext c image reportFile patchedTag workingFolder scanner format
        output ignoreError).trace, ev.isBuildWork = false) ∧
    startsWith errRedHat.Error.data "RedHat ".data = true ∧
    startsWith errRockyLinux.Error.data "RockyLinux ".data = true ∧
    startsWith errAlmaLinux.Error.data "AlmaLinux ".data = true := by
  have hpol : s.2.2.2.2 = some policy := by
    have := beforePolicyCheck_policy c image reportFile patchedTag workingFolder scanner s hbefore
    rw [hread] at this
    exact (Except.ok.inj this).symm
  have hcheck : checkSourcePolicy s.2.2.2.2 =
      ⟨[], .err (if Contains updates.Identifier "redhat" = true then errRedHat
        else if Contains updates.Identifier "rockylinux" = true then errRockyLinux
        else errAlmaLinux)⟩ := by
    rw [hpol]
    simp only [checkSourcePolicy, firstIdentifier, hrules, hupdates]
    by_cases h1 : Contains updates.Identifier "redhat" = true
    · simp [h1, fail]
    · by_cases h2 : Contains updates.Identifier "rockylinux" = true
      · simp [h1, h2, fail]
      · have h3 : Contains updates.Identifier "alma" = true := by
          rcases hmatch with h | h | h
          · exact absurd h h1
          · exact absurd h h2
          · exact h
        simp [h1, h2, h3, fail]
  have hrun : patchWithContext c image reportFile patchedTag workingFolder scanner format
      output ignoreError =
      ⟨(beforePolicyCheck c image reportFile patchedTag workingFolder scanner).trace,
        .err (if Contains updates.Identifier "redhat" = true then errRedHat
          else if Contains updates.Identifier "rockylinux" = true then errRockyLinux
          else errAlmaLinux)⟩ := by
    unfold patchWithContext
    simp only [bind_eq]
    rw [Run.bind, hbefore]
    simp only
    rw [Run.bind, hcheck]
    simp
  refine ⟨by rw [hrun], by rw [hrun], ?_, by rfl, by rfl, by rfl⟩
  rw [hrun]
  exact beforePolicyCheck_all c image reportFile patchedTag workingFolder scanner

end Admission

/-- Witness for C4: a policy whose first rule names a RockyLinux image stops the run
with the RockyLinux error before any build work. -/
theorem firstRule_rejected_witness :
    (patchWithContext (scenario ubuntuRelease debianReport (some rockyFirstPolicy) [])
        "ubuntu:20.04" "" "" "" "trivy" "openvex" "" false).out = .err errRockyLinux ∧
    ∀ ev ∈ (patchWithContext (scenario ubuntuRelease debianReport (some rockyFirstPolicy) [])
        "ubuntu:20.04" "" "" "" "trivy" "openvex" "" false).trace, ev.isBuildWork = false :=
  have h := firstRule_rejected (scenario ubuntuRelease debianReport (some rockyFirstPolicy) [])
    "ubuntu:20.04" "" "" "" "trivy" "openvex" "" false
    (.taggedReference ⟨"docker.io", "library/ubuntu"⟩ "20.04",
      "docker.io/library/ubuntu:20.04-patched", "/tmp/copa-1", none, some rockyFirstPolicy)
    rockyFirstPolicy ⟨some ⟨"docker-image://docker.io/rockylinux/rockylinux:9"⟩⟩ []
    ⟨"docker-image://docker.io/rockylinux/rockylinux:9"⟩ rfl rfl rfl rfl (Or.inr (Or.inl rfl))
  ⟨h.1, h.2.2.1⟩

/-- Counterexample to C4 as stated: a source policy whose second rule names a RedHat
image is accepted; the run goes on to `bkClient.Build` and ends without error. -/
theorem rule_rejected_counterexample :
    (∃ rule ∈ redhatSecondPolicy.Rules, ∃ r updates, rule = some r ∧
      r.Updates = some updates ∧ Contains updates.Identifier "redhat" = true) ∧
    (patchWithContext (scenario ubuntuRelease debianReport (some redhatSecondPolicy) [])
        "ubuntu:20.04" "" "" "" "trivy" "openvex" "" false).out = .ok () ∧
    Event.Build "docker.io/library/ubuntu:20.04-patched" copaProduct ∈
      (patchWithContext (scenario ubuntuRelease debianReport (some redhatSecondPolicy) [])
        "ubuntu:20.04" "" "" "" "trivy" "openvex" "" false).trace := by
  refine ⟨⟨_, List.mem_cons_of_mem _ (List.mem_cons_self _ _), _, _, rfl, rfl, by rfl⟩,
    by rfl, by decide⟩

/-- C10 (the code at the failing inputs). A non-nil source policy with an empty rule
list makes the admission check panic on `Rules[0]`, and one whose first rule has no
update section makes it panic on the nil dereference; the whole run then ends in that
panic instead of acceptance or a policy error. -/
theorem checkSourcePolicy_panics :
    (checkSourcePolicy (some emptyPolicy)).out = .panic indexOutOfRange ∧
    (checkSourcePolicy (some noUpdatesPolicy)).out = .panic nilDereference ∧
    (patchWithContext (scenario ubuntuRelease debianReport (some emptyPolicy) [])
        "ubuntu:20.04" "" "" "" "trivy" "openvex" "" false).out = .panic indexOutOfRange ∧
    (patchWithContext (scenario ubuntuRelease debianReport (some noUpdatesPolicy) [])
        "ubuntu:20.04" "" "" "" "trivy" "openvex" "" false).out = .panic nilDereference := by
  refine ⟨by rfl, by rfl, by rfl, by rfl⟩

/-! ## The run after the admission check -/

section WholeRun

variable {Config Manager LLBState Definition Result : Type}

theorem bind_pure_trace {α β : Type} (x : Run α) (b : β) :
    (x >>= fun _ => (pure b : Run β)).trace = x.trace := by
  cases hx : x.out with
  | ok a => rw [bind_trace_ok x _ a hx, pure_eq, Run.pure, List.append_nil]
  | err e => rw [bind_err x _ e hx]
  | panic m => rw [bind_panic x _ m hx]

theorem patchWithContext_trace_ok (c : Collab Config Manager LLBState Definition Result)
    (image reportFile patchedTag workingFolder scanner format output : String)
    (ignoreError : Bool)
    (s : reference.Named × String × String × Option unversioned.UpdateManifest ×
      Option spb.Policy)
    (hbefore :
      (beforePolicyCheck c image reportFile patchedTag workingFolder scanner).out = .ok s)
    (hcheck : (checkSourcePolicy s.2.2.2.2).out = .ok ()) :
    (patchWithContext c image reportFile patchedTag workingFolder scanner format output
        ignoreError).trace =
      (beforePolicyCheck c image reportFile patchedTag workingFolder scanner).trace ++
        (.Build s.2.1 copaProduct ::
          (buildCallback c s.1 reportFile s.2.2.1 format output s.2.1 s.2.2.2.1
            ignoreError).trace) := by
  unfold patchWithContext
  rw [bind_trace_ok _ _ s hbefore, bind_trace_ok _ _ () hcheck, checkSourcePolicy_trace,
    bind_trace_ok _ _ () rfl, bind_pure_trace]
  rfl

theorem mem_patchWithContext_trace (c : Collab Config Manager LLBState Definition Result)
    (image reportFile patchedTag workingFolder scanner format output : String)
    (ignoreError : Bool) (ev : Event)
    (hev : ev ∈ (patchWithContext c image reportFile patchedTag workingFolder scanner format
      output ignoreError).trace) :
    ev.isBuildWork = false ∨
      ∃ s, (beforePolicyCheck c image reportFile patchedTag workingFolder scanner).out =
          .ok s ∧
        (ev = .Build s.2.1 copaProduct ∨
          ev ∈ (buildCallback c s.1 reportFile s.2.2.1 format output s.2.1 s.2.2.2.1
            ignoreError).trace) := by
  unfold patchWithContext at hev
  rcases (mem_bind_trace _ _ ev).1 hev with h | ⟨s, hs, h⟩
  · exact Or.inl (beforePolicyCheck_all c image reportFile patchedTag workingFolder scanner ev h)
  · rcases (mem_bind_trace _ _ ev).1 h with h | ⟨_, _, h⟩
    · simp [checkSourcePolicy_trace] at h
    · rcases (mem_bind_trace _ _ ev).1 h with h | ⟨_, _, h⟩
      · simp [call] at h
        exact Or.inr ⟨s, hs, Or.inl h⟩
      · rcases (mem_bind_trace _ _ ev).1 h with h | ⟨_, _, h⟩
        · exact Or.inr ⟨s, hs, Or.inr h⟩
        · simp [pure_eq, Run.pure] at h

theorem beforePolicyCheck_updates (c : Collab Config Manager LLBState Definition Result)
    (image reportFile patchedTag workingFolder scanner : String)
    (s : reference.Named × String × String × Option unversioned.UpdateManifest ×
      Option spb.Policy)
    (hs : (beforePolicyCheck c image reportFile patchedTag workingFolder scanner).out = .ok s) :
    (reportFile = "" ∧ s.2.2.2.1 = none) ∨
      (reportFile ≠ "" ∧ ∃ u, c.TryParseScanReport reportFile scanner = .ok u ∧
        s.2.2.2.1 = some u) := by
  unfold beforePolicyCheck at hs
  obtain ⟨names, _, hs⟩ := (bind_out_ok_iff _ _ _).1 hs
  obtain ⟨folder, _, hs⟩ := (bind_out_ok_iff _ _ _).1 hs
  obtain ⟨updates, hupdates, hs⟩ := (bind_out_ok_iff _ _ _).1 hs
  obtain ⟨_, _, hs⟩ := (bind_out_ok_iff _ _ _).1 hs
  obtain ⟨policy, _, hs⟩ := (bind_out_ok_iff _ _ _).1 hs
  simp [pure_eq, Run.pure] at hs
  rw [← hs]
  unfold loadReport at hupdates
  by_cases hr : reportFile = ""
  · left
    have hr1 : (reportFile != "") = false := by simp [hr]
    rw [hr1] at hupdates
    simp [pure_eq, Run.pure] at hupdates
    exact ⟨hr, hupdates.symm⟩
  · right
    have hr1 : (reportFile != "") = true := by simp [hr]
    rw [if_pos hr1] at hupdates
    obtain ⟨u, hu, hupdates⟩ := (bind_out_ok_iff _ _ _).1 hupdates
    simp [pure_eq, Run.pure] at hupdates
    exact ⟨hr, u, (call_out_ok _ _ _).1 hu, hupdates.symm⟩

theorem resolveManager_report (c : Collab Config Manager LLBState Definition Result)
    (reportFile workingFolder : String) (u : unversioned.UpdateManifest) (config : Config)
    (hr : reportFile ≠ "") :
    resolveManager c reportFile workingFolder (some u) config =
      callSend (.GetPackageManager u.Metadata.OS.Type_ u.Metadata.OS.Version workingFolder)
        (c.GetPackageManager u.Metadata.OS.Type_ u.Metadata.OS.Version config workingFolder)
        id := by
  unfold resolveManager
  have : (reportFile == "") = false := by simp [hr]
  simp [this]

theorem resolveManager_live (c : Collab Config Manager LLBState Definition Result)
    (workingFolder : String) (updates : Option unversioned.UpdateManifest) (config : Config)
    (fileBytes : Bytes) (osType osVersion : String)
    (hfile : c.ExtractFileFromState config "/etc/os-release" = .ok fileBytes)
    (htype : getOSType c.toDetectLib fileBytes = .ok osType)
    (hversion : getOSVersion c.toDetectLib fileBytes = .ok osVersion) :
    (resolveManager c "" workingFolder updates config).trace =
        [.ExtractFileFromState "/etc/os-release", .getOSType fileBytes,
          .getOSVersion fileBytes] ++
        (callSend (.GetPackageManager osType osVersion workingFolder)
          (c.GetPackageManager osType osVersion config workingFolder) id).trace ∧
      (resolveManager c "" workingFolder updates config).out =
        (callSend (.GetPackageManager osType osVersion workingFolder)
          (c.GetPackageManager osType osVersion config workingFolder) id).out := by
  unfold resolveManager
  rw [if_pos (by rfl)]
  constructor
  · rw [bind_trace_ok _ _ fileBytes (by rw [callSend_out_ok]; exact hfile)]
    rw [bind_trace_ok _ _ osType (by rw [callSend_out_ok]; exact htype)]
    rw [bind_trace_ok _ _ osVersion (by rw [callSend_out_ok]; exact hversion)]
    rw [hfile, htype, hversion]
    rfl
  · rw [bind_out_ok _ _ fileBytes (by rw [callSend_out_ok]; exact hfile)]
    rw [bind_out_ok _ _ osType (by rw [callSend_out_ok]; exact htype)]
    rw [bind_out_ok _ _ osVersion (by rw [callSend_out_ok]; exact hversion)]

theorem buildStages_out (c : Collab Config Manager LLBState Definition Result)
    (imageName : reference.Named) (reportFile workingFolder : String)
    (updates : Option unversioned.UpdateManifest) (ignoreError : Bool)
    (config : Config) (manager : Manager) (installed : LLBState × List String)
    (defn : Definition) (res : Result)
    (hinit : c.InitializeBuildkitConfig imageName.String = .ok config)
    (hmanager : (resolveManager c reportFile workingFolder updates config).out = .ok manager)
    (hinstall : c.InstallUpdates manager updates ignoreError = .ok installed)
    (hmarshal : c.Marshal installed.1 (targetPlatform c.DefaultSpec) = .ok defn)
    (hsolve : c.Solve defn = .ok res) :
    (buildStages c imageName reportFile workingFolder updates ignoreError).out =
      .ok (manager, installed.2, c.AddMeta res config) := by
  unfold buildStages
  rw [bind_out_ok _ _ config (by rw [callSend_out_ok]; exact hinit),
    bind_out_ok _ _ manager hmanager]
  unfold installAndSolve
  rw [bind_out_ok _ _ installed (by rw [callSend_out_ok]; exact hinstall)]
  dsimp only
  rw [bind_out_ok _ _ defn (by rw [callSend_out_ok]; exact hmarshal),
    bind_out_ok _ _ res (by rw [callSend_out_ok]; exact hsolve)]
  rfl

end WholeRun

/-! ## VEX emission -/

section Vex

variable {Config Manager LLBState Definition Result : Type}

theorem buildCallback_vex (c : Collab Config Manager LLBState Definition Result)
    (imageName : reference.Named)
    (reportFile workingFolder format output patchedImageName : String)
    (updates : Option unversioned.UpdateManifest) (ignoreError : Bool)
    (built : Manager × List String × Result)
    (hbuilt : (buildStages c imageName reportFile workingFolder updates ignoreError).out =
      .ok built) (ev : Event) :
    (ev ∈ (buildCallback c imageName reportFile workingFolder format output patchedImageName
        updates ignoreError).trace ∧ ev.isVex = true) ↔
      (ev ∈ (emitVex c reportFile format output patchedImageName updates built.1
        built.2.1).trace ∧ ev.isVex = true) := by
  unfold buildCallback
  rw [mem_bind_trace]
  constructor
  · rintro ⟨h | ⟨a, ha, h⟩, hv⟩
    · have := (buildStages_all c imageName reportFile workingFolder updates ignoreError ev h).2
      rw [hv] at this
      exact absurd this (by decide)
    · rw [hbuilt] at ha
      cases ha
      rcases (mem_bind_trace _ _ ev).1 h with h | ⟨_, _, h⟩
      · exact ⟨h, hv⟩
      · simp [pure_eq, Run.pure] at h
  · rintro ⟨h, hv⟩
    exact ⟨Or.inr ⟨built, hbuilt, (mem_bind_trace _ _ ev).2 (Or.inl h)⟩, hv⟩

theorem patchWithContext_vex (c : Collab Config Manager LLBState Definition Result)
    (image reportFile patchedTag workingFolder scanner format output : String)
    (ignoreError : Bool)
    (s : reference.Named × String × String × Option unversioned.UpdateManifest ×
      Option spb.Policy)
    (hbefore :
      (beforePolicyCheck c image reportFile patchedTag workingFolder scanner).out = .ok s)
    (hcheck : (checkSourcePolicy s.2.2.2.2).out = .ok ()) (ev : Event) :
    (ev ∈ (patchWithContext c image reportFile patchedTag workingFolder scanner format output
        ignoreError).trace ∧ ev.isVex = true) ↔
      (ev ∈ (buildCallback c s.1 reportFile s.2.2.1 format output s.2.1 s.2.2.2.1
        ignoreError).trace ∧ ev.isVex = true) := by
  rw [patchWithContext_trace_ok c image reportFile patchedTag workingFolder scanner format
    output ignoreError s hbefore hcheck]
  constructor
  · rintro ⟨hmem, hv⟩
    rcases List.mem_append.1 hmem with h | h
    · have := beforePolicyCheck_all c image reportFile patchedTag workingFolder scanner ev h
      cases ev <;> simp [Event.isBuildWork, Event.isVex] at this hv
    · rcases List.mem_cons.1 h with h | h
      · rw [h] at hv
        simp [Event.isVex] at hv
      · exact ⟨h, hv⟩
  · rintro ⟨hmem, hv⟩
    exact ⟨List.mem_append.2 (Or.inr (List.mem_cons_of_mem _ hmem)), hv⟩

/-- C6. In a run of `patchWithContext` in which every stage before the reconciliation
succeeds (the stages before the admission check, the check itself, the build
configuration, the package manager, `InstallUpdates` returning the failed-package list
`installed.2`, marshalling and solving), the VEX emitter is called if and only if a
report file is named, the output path is non-empty and the manifest returned by the
report loader, reconciled with the failed packages returned by `InstallUpdates`, has at
least one update; the call is then made on exactly that reconciled manifest.  With no
report file there is no VEX call whatever the output path, and when every update of the
report is among the failed packages there is none either. -/
theorem patchWithContext_vex_gating (c : Collab Config Manager LLBState Definition Result)
    (image reportFile patchedTag workingFolder scanner format output : String)
    (ignoreError : Bool)
    (s : reference.Named × String × String × Option unversioned.UpdateManifest ×
      Option spb.Policy)
    (config : Config) (manager : Manager) (installed : LLBState × List String)
    (defn : Definition) (res : Result)
    (hbefore :
      (beforePolicyCheck c image reportFile patchedTag workingFolder scanner).out = .ok s)
    (hcheck : (checkSourcePolicy s.2.2.2.2).out = .ok ())
    (hinit : c.InitializeBuildkitConfig s.1.String = .ok config)
    (hmanager :
      (reportFile = "" ∧ ∃ fileBytes osType osVersion,
        c.ExtractFileFromState config "/etc/os-release" = .ok fileBytes ∧
        getOSType c.toDetectLib fileBytes = .ok osType ∧
        getOSVersion c.toDetectLib fileBytes = .ok osVersion ∧
        c.GetPackageManager osType osVersion config s.2.2.1 = .ok manager) ∨
      (reportFile ≠ "" ∧ ∃ u, c.TryParseScanReport reportFile scanner = .ok u ∧
        c.GetPackageManager u.Metadata.OS.Type_ u.Metadata.OS.Version config s.2.2.1 =
          .ok manager))
    (hinstall : c.InstallUpdates manager s.2.2.2.1 ignoreError = .ok installed)
    (hmarshal : c.Marshal installed.1 (targetPlatform c.DefaultSpec) = .ok defn)
    (hsolve : c.Solve defn = .ok res) :
    ((∃ ev ∈ (patchWithContext c image reportFile patchedTag workingFolder scanner format
          output ignoreError).trace, ev.isVex = true) ↔
      reportFile ≠ "" ∧ output ≠ "" ∧
        ∃ u, c.TryParseScanReport reportFile scanner = .ok u ∧
          0 < (reconcile u installed.2).Updates.length) ∧
    (∀ ev ∈ (patchWithContext c image reportFile patchedTag workingFolder scanner format
          output ignoreError).trace, ev.isVex = true →
      ∃ u, c.TryParseScanReport reportFile scanner = .ok u ∧
        ev = .TryOutputVexDocument (reconcile u installed.2) s.2.1 format output) ∧
    (reportFile = "" →
      ∀ ev ∈ (patchWithContext c image reportFile patchedTag workingFolder scanner format
          output ignoreError).trace, ev.isVex = false) ∧
    (∀ u, c.TryParseScanReport reportFile scanner = .ok u →
      (∀ p ∈ u.Updates, p.Name ∈ installed.2) →
      ∀ ev ∈ (patchWithContext c image reportFile patchedTag workingFolder scanner format
          output ignoreError).trace, ev.isVex = false) := by
  have hupd := beforePolicyCheck_updates c image reportFile patchedTag workingFolder scanner
    s hbefore
  have hloaded : ∀ u, reportFile ≠ "" →
      (s.2.2.2.1 = some u ↔ c.TryParseScanReport reportFile scanner = .ok u) := by
    intro u hr
    rcases hupd with ⟨h, _⟩ | ⟨_, u0, hu0, hs0⟩
    · exact absurd h hr
    · rw [hs0, hu0]
      constructor
      · intro h
        rw [Option.some.inj h]
      · intro h
        rw [Except.ok.inj h]
  have hmgr : (resolveManager c reportFile s.2.2.1 s.2.2.2.1 config).out = .ok manager := by
    rcases hmanager with ⟨hr, fileBytes, osType, osVersion, hfile, htype, hversion, hget⟩ |
      ⟨hr, u, hu, hget⟩
    · subst hr
      rw [(resolveManager_live c s.2.2.1 s.2.2.2.1 config fileBytes osType osVersion hfile
        htype hversion).2, callSend_out_ok]
      exact hget
    · rw [(hloaded u hr).2 hu, resolveManager_report c reportFile s.2.2.1 u config hr,
        callSend_out_ok]
      exact hget
  have hbuilt := buildStages_out c s.1 reportFile s.2.2.1 s.2.2.2.1 ignoreError config
    manager installed defn res hinit hmgr hinstall hmarshal hsolve
  have key : ∀ ev, (ev ∈ (patchWithContext c image reportFile patchedTag workingFolder
        scanner format output ignoreError).trace ∧ ev.isVex = true) ↔
      reportFile ≠ "" ∧ output ≠ "" ∧ ∃ u, c.TryParseScanReport reportFile scanner = .ok u ∧
        0 < (reconcile u installed.2).Updates.length ∧
        ev = .TryOutputVexDocument (reconcile u installed.2) s.2.1 format output := by
    intro ev
    rw [patchWithContext_vex c image reportFile patchedTag workingFolder scanner format
        output ignoreError s hbefore hcheck ev,
      buildCallback_vex c s.1 reportFile s.2.2.1 format output s.2.1 s.2.2.2.1 ignoreError
        _ hbuilt ev,
      emitVex_vex c reportFile format output s.2.1 s.2.2.2.1 manager installed.2 ev]
    constructor
    · rintro ⟨hr, ho, u, hu, hl, hev⟩
      exact ⟨hr, ho, u, (hloaded u hr).1 hu, hl, hev⟩
    · rintro ⟨hr, ho, u, hu, hl, hev⟩
      exact ⟨hr, ho, u, (hloaded u hr).2 hu, hl, hev⟩
  refine ⟨⟨?_, ?_⟩, ?_, ?_, ?_⟩
  · rintro ⟨ev, hmem, hv⟩
    obtain ⟨h1, h2, u, hu, hl, _⟩ := (key ev).1 ⟨hmem, hv⟩
    exact ⟨h1, h2, u, hu, hl⟩
  · rintro ⟨h1, h2, u, hu, hl⟩
    have := (key (.TryOutputVexDocument (reconcile u installed.2) s.2.1 format
      output)).2 ⟨h1, h2, u, hu, hl, rfl⟩
    exact ⟨_, this.1, this.2⟩
  · intro ev hmem hv
    obtain ⟨_, _, u, hu, _, hev⟩ := (key ev).1 ⟨hmem, hv⟩
    exact ⟨u, hu, hev⟩
  · intro hr ev hmem
    cases hv : ev.isVex with
    | false => rfl
    | true => exact absurd hr ((key ev).1 ⟨hmem, hv⟩).1
  · intro u hu hall ev hmem
    cases hv : ev.isVex with
    | false => rfl
    | true =>
      obtain ⟨_, _, u2, hu2, hl, _⟩ := (key ev).1 ⟨hmem, hv⟩
      rw [hu] at hu2
      cases hu2
      rw [reconcile_updates] at hl
      have hnil : u.Updates.filter (fun p => !(installed.2.contains p.Name)) = [] := by
        rw [List.filter_eq_nil_iff]
        intro p hp
        simpa using hall p hp
      rw [hnil] at hl
      exact absurd hl (by simp)

end Vex


/-- Witness for C6: with the Debian report and an output path, a run in which `curl`
failed calls the VEX emitter, and a run in which all three packages failed does not. -/
theorem patchWithContext_vex_gating_witness :
    ((∃ ev ∈ (patchWithContext (scenario ubuntuRelease debianReport none ["curl"])
          "debian:11" "report.json" "" "" "trivy" "openvex" "vex.json" true).trace,
        ev.isVex = true) ↔
      "report.json" ≠ "" ∧ "vex.json" ≠ "" ∧
        ∃ u, (scenario ubuntuRelease debianReport none ["curl"]).TryParseScanReport
            "report.json" "trivy" = .ok u ∧
          0 < (reconcile u ["curl"]).Updates.length) ∧
    ∀ ev ∈ (patchWithContext
        (scenario ubuntuRelease debianReport none ["openssl", "curl", "zlib1g"])
        "debian:11" "report.json" "" "" "trivy" "openvex" "vex.json" true).trace,
      ev.isVex = false :=
  ⟨(patchWithContext_vex_gating (scenario ubuntuRelease debianReport none ["curl"])
      "debian:11" "report.json" "" "" "trivy" "openvex" "vex.json" true
      (.taggedReference ⟨"docker.io", "library/debian"⟩ "11",
        "docker.io/library/debian:11-patched", "/tmp/copa-1", some debianReport, none)
      () () ((), ["curl"]) () () rfl rfl rfl
      (Or.inr ⟨by decide, debianReport, rfl, rfl⟩) rfl rfl rfl).1,
   (patchWithContext_vex_gating
      (scenario ubuntuRelease debianReport none ["openssl", "curl", "zlib1g"])
      "debian:11" "report.json" "" "" "trivy" "openvex" "vex.json" true
      (.taggedReference ⟨"docker.io", "library/debian"⟩ "11",
        "docker.io/library/debian:11-patched", "/tmp/copa-1", some debianReport, none)
      () () ((), ["openssl", "curl", "zlib1g"]) () () rfl rfl rfl
      (Or.inr ⟨by decide, debianReport, rfl, rfl⟩) rfl rfl rfl).2.2.2
      debianReport rfl (by decide)⟩

/-! ## Package-manager dispatch -/

section Dispatch

variable {Config Manager LLBState Definition Result : Type}

theorem resolvedOS_of_all {α : Type} (x : Run α) (h : x.All (fun ev => ev.factoryArgs = none)) :
    resolvedOS x.trace = [] := by
  unfold resolvedOS
  rw [List.filterMap_eq_nil_iff]
  exact h

theorem resolvedOS_bind_of_all {α β : Type} (x : Run α) (f : α → Run β)
    (h : ∀ a, (f a).All (fun ev => ev.factoryArgs = none)) :
    resolvedOS (x >>= f).trace = resolvedOS x.trace := by
  cases hx : x.out with
  | ok a =>
    rw [bind_trace_ok x f a hx]
    unfold resolvedOS
    rw [List.filterMap_append]
    have := resolvedOS_of_all (f a) (h a)
    unfold resolvedOS at this
    rw [this, List.append_nil]
  | err e => rw [bind_err x f e hx]
  | panic m => rw [bind_panic x f m hx]

theorem resolvedOS_callSend_factory {α : Type} (osType osVersion workingFolder : String)
    (r : Except GoError α) (w : GoError → GoError) :
    resolvedOS (callSend (.GetPackageManager osType osVersion workingFolder) r w).trace =
      [(osType, osVersion)] := by
  cases r <;> rfl

theorem resolvedOS_afterManager (c : Collab Config Manager LLBState Definition Result)
    (imageName : reference.Named)
    (reportFile workingFolder format output patchedImageName : String)
    (updates : Option unversioned.UpdateManifest) (ignoreError : Bool) (config : Config)
    (hinit : c.InitializeBuildkitConfig imageName.String = .ok config) :
    resolvedOS (buildCallback c imageName reportFile workingFolder format output
        patchedImageName updates ignoreError).trace =
      resolvedOS (resolveManager c reportFile workingFolder updates config).trace := by
  unfold buildCallback
  rw [resolvedOS_bind_of_all]
  · unfold buildStages
    rw [bind_trace_ok _ _ config (by rw [callSend_out_ok]; exact hinit)]
    unfold resolvedOS
    rw [List.filterMap_append]
    have h1 : List.filterMap Event.factoryArgs
        (callSend (.InitializeBuildkitConfig imageName.String)
          (c.InitializeBuildkitConfig imageName.String) id).trace = [] := by
      rw [hinit]
      rfl
    rw [h1, List.nil_append]
    exact resolvedOS_bind_of_all _ _
      (fun a ev hev => (installAndSolve_all c updates ignoreError config a ev hev).2.2.2)
  · intro a
    exact all_bind _ _ _ (fun ev hev => (emitVex_all _ _ _ _ _ _ _ _ ev hev).2.2)
      (fun _ _ => all_pure _ _)

theorem resolvedOS_initFailed (c : Collab Config Manager LLBState Definition Result)
    (imageName : reference.Named)
    (reportFile workingFolder format output patchedImageName : String)
    (updates : Option unversioned.UpdateManifest) (ignoreError : Bool) (e : GoError)
    (hinit : c.InitializeBuildkitConfig imageName.String = .error e) :
    resolvedOS (buildCallback c imageName reportFile workingFolder format output
        patchedImageName updates ignoreError).trace = [] := by
  unfold buildCallback buildStages
  rw [bind_err _ _ e]
  · rw [bind_err _ _ e (by rw [hinit]; rfl), hinit]
    rfl
  · rw [bind_err _ _ e (by rw [hinit]; rfl)]

theorem resolvedOS_report (c : Collab Config Manager LLBState Definition Result)
    (imageName : reference.Named)
    (reportFile workingFolder format output patchedImageName : String)
    (u : unversioned.UpdateManifest) (ignoreError : Bool) (hr : reportFile ≠ "") :
    resolvedOS (buildCallback c imageName reportFile workingFolder format output
        patchedImageName (some u) ignoreError).trace =
      match c.InitializeBuildkitConfig imageName.String with
      | .ok _ => [(u.Metadata.OS.Type_, u.Metadata.OS.Version)]
      | .error _ => [] := by
  cases hinit : c.InitializeBuildkitConfig imageName.String with
  | ok config =>
    rw [resolvedOS_afterManager c imageName reportFile workingFolder format output
      patchedImageName (some u) ignoreError config hinit, resolveManager_report c reportFile
      workingFolder u config hr]
    exact resolvedOS_callSend_factory _ _ _ _ _
  | error e =>
    exact resolvedOS_initFailed c imageName reportFile workingFolder format output
      patchedImageName (some u) ignoreError e hinit

theorem noDetection_report (c : Collab Config Manager LLBState Definition Result)
    (imageName : reference.Named)
    (reportFile workingFolder format output patchedImageName : String)
    (updates : Option unversioned.UpdateManifest) (ignoreError : Bool)
    (hr : reportFile ≠ "") :
    (buildCallback c imageName reportFile workingFolder format output patchedImageName
      updates ignoreError).All (fun ev => ev.isDetection = false) := by
  unfold buildCallback
  refine all_bind _ _ _ ?_ (fun _ _ => ?_)
  · unfold buildStages
    refine all_bind _ _ _ (all_callSend _ _ _ _ rfl (fun _ => rfl)) (fun config _ => ?_)
    refine all_bind _ _ _ ?_ (fun a _ ev hev => (installAndSolve_all c _ _ _ a ev hev).2.2.1)
    cases updates with
    | none =>
      unfold resolveManager
      have : (reportFile == "") = false := by simp [hr]
      simp only [this]
      exact all_panicWith _ _
    | some u =>
      rw [resolveManager_report c reportFile workingFolder u config hr]
      exact all_callSend _ _ _ _ rfl (fun _ => rfl)
  · exact all_bind _ _ _ (fun ev hev => (emitVex_all _ _ _ _ _ _ _ _ ev hev).2.1)
      (fun _ _ => all_pure _ _)

theorem resolvedOS_patchWithContext (c : Collab Config Manager LLBState Definition Result)
    (image reportFile patchedTag workingFolder scanner format output : String)
    (ignoreError : Bool)
    (s : reference.Named × String × String × Option unversioned.UpdateManifest ×
      Option spb.Policy)
    (hbefore :
      (beforePolicyCheck c image reportFile patchedTag workingFolder scanner).out = .ok s)
    (hcheck : (checkSourcePolicy s.2.2.2.2).out = .ok ()) :
    resolvedOS (patchWithContext c image reportFile patchedTag workingFolder scanner format
        output ignoreError).trace =
      resolvedOS (buildCallback c s.1 reportFile s.2.2.1 format output s.2.1 s.2.2.2.1
        ignoreError).trace := by
  rw [patchWithContext_trace_ok c image reportFile patchedTag workingFolder scanner format
    output ignoreError s hbefore hcheck]
  unfold resolvedOS
  rw [List.filterMap_append, List.filterMap_cons]
  have h1 : List.filterMap Event.factoryArgs
      (beforePolicyCheck c image reportFile patchedTag workingFolder scanner).trace = [] := by
    rw [List.filterMap_eq_nil_iff]
    intro ev hev
    have := beforePolicyCheck_all c image reportFile patchedTag workingFolder scanner ev hev
    cases ev <;> simp [Event.isBuildWork] at this <;> rfl
  rw [h1]
  rfl

theorem swap_detection (c : Collab Config Manager LLBState Definition Result)
    (extract : Config → String → Except GoError Bytes) (lib : DetectLib)
    (image reportFile patchedTag workingFolder scanner format output : String)
    (ignoreError : Bool) (hr : reportFile ≠ "") :
    patchWithContext { c with ExtractFileFromState := extract, toDetectLib := lib } image
        reportFile patchedTag workingFolder scanner format output ignoreError =
      patchWithContext c image reportFile patchedTag workingFolder scanner format output
        ignoreError := by
  have hrm : ∀ wf updates config,
      resolveManager { c with ExtractFileFromState := extract, toDetectLib := lib }
          reportFile wf updates config =
        resolveManager c reportFile wf updates config := by
    intro wf updates config
    unfold resolveManager
    have : (reportFile == "") = false := by simp [hr]
    simp only [this]
    rfl
  unfold patchWithContext buildCallback buildStages
  simp only [hrm]
  rfl

/-- C8. When a report is supplied (`reportFile` is non-empty and the report loader
returns the manifest `u`), every `(osType, osVersion)` that a run of `patchWithContext`
hands to the package-manager factory is the pair of the report's metadata, and the
factory is called with exactly that pair once the stages before it succeed; with a
report file named, no call of the OS detector is made, and replacing what the image
holds at `/etc/os-release` (the extraction and the detector's library functions) leaves
the whole run, and so the resolved pair, unchanged.  When no report is supplied, the
pair handed to the factory is the result of `getOSType` and `getOSVersion` on the bytes
extracted from the image's `/etc/os-release`. -/
theorem patchWithContext_dispatch (c : Collab Config Manager LLBState Definition Result)
    (image reportFile patchedTag workingFolder scanner format output : String)
    (ignoreError : Bool) :
    (∀ u, reportFile ≠ "" → c.TryParseScanReport reportFile scanner = .ok u →
      (∀ pair ∈ resolvedOS (patchWithContext c image reportFile patchedTag workingFolder
          scanner format output ignoreError).trace,
        pair = (u.Metadata.OS.Type_, u.Metadata.OS.Version)) ∧
      (∀ s config,
        (beforePolicyCheck c image reportFile patchedTag workingFolder scanner).out = .ok s →
        (checkSourcePolicy s.2.2.2.2).out = .ok () →
        c.InitializeBuildkitConfig s.1.String = .ok config →
        resolvedOS (patchWithContext c image reportFile patchedTag workingFolder scanner
          format output ignoreError).trace =
            [(u.Metadata.OS.Type_, u.Metadata.OS.Version)])) ∧
    (reportFile ≠ "" →
      (∀ ev ∈ (patchWithContext c image reportFile patchedTag workingFolder scanner format
          output ignoreError).trace, ev.isDetection = false) ∧
      (∀ (extract : Config → String → Except GoError Bytes) (lib : DetectLib),
        patchWithContext { c with ExtractFileFromState := extract, toDetectLib := lib }
            image reportFile patchedTag workingFolder scanner format output ignoreError =
          patchWithContext c image reportFile patchedTag workingFolder scanner format
            output ignoreError)) ∧
    (reportFile = "" → ∀ s config fileBytes osType osVersion,
      (beforePolicyCheck c image reportFile patchedTag workingFolder scanner).out = .ok s →
      (checkSourcePolicy s.2.2.2.2).out = .ok () →
      c.InitializeBuildkitConfig s.1.String = .ok config →
      c.ExtractFileFromState config "/etc/os-release" = .ok fileBytes →
      getOSType c.toDetectLib fileBytes = .ok osType →
      getOSVersion c.toDetectLib fileBytes = .ok osVersion →
      resolvedOS (patchWithContext c image reportFile patchedTag workingFolder scanner
          format output ignoreError).trace = [(osType, osVersion)] ∧
        Event.getOSType fileBytes ∈ (patchWithContext c image reportFile patchedTag
          workingFolder scanner format output ignoreError).trace ∧
        Event.getOSVersion fileBytes ∈ (patchWithContext c image reportFile patchedTag
          workingFolder scanner format output ignoreError).trace) := by
  refine ⟨?_, ?_, ?_⟩
  · intro u hr hu
    have hloaded : ∀ s,
        (beforePolicyCheck c image reportFile patchedTag workingFolder scanner).out = .ok s →
        s.2.2.2.1 = some u := by
      intro s hs
      rcases beforePolicyCheck_updates c image reportFile patchedTag workingFolder scanner s
        hs with ⟨h, _⟩ | ⟨_, u0, hu0, hs0⟩
      · exact absurd h hr
      · rw [hu] at hu0
        rw [hs0, Except.ok.inj hu0]
    constructor
    · intro pair hpair
      simp only [resolvedOS, List.mem_filterMap] at hpair
      obtain ⟨ev, hev, hargs⟩ := hpair
      rcases mem_patchWithContext_trace c image reportFile patchedTag workingFolder scanner
        format output ignoreError ev hev with h | ⟨s, hs, h | h⟩
      · cases ev <;> simp [Event.isBuildWork, Event.factoryArgs] at h hargs
      · rw [h] at hargs
        simp [Event.factoryArgs] at hargs
      · have hmem : pair ∈ resolvedOS (buildCallback c s.1 reportFile s.2.2.1 format output
            s.2.1 s.2.2.2.1 ignoreError).trace := by
          simp only [resolvedOS, List.mem_filterMap]
          exact ⟨ev, h, hargs⟩
        rw [hloaded s hs, resolvedOS_report c s.1 reportFile s.2.2.1 format output s.2.1 u
          ignoreError hr] at hmem
        cases hinit : c.InitializeBuildkitConfig s.1.String with
        | ok config =>
          rw [hinit] at hmem
          simpa using hmem
        | error e =>
          rw [hinit] at hmem
          simp at hmem
    · intro s config hs hcheck hinit
      rw [resolvedOS_patchWithContext c image reportFile patchedTag workingFolder scanner
        format output ignoreError s hs hcheck, hloaded s hs,
        resolvedOS_report c s.1 reportFile s.2.2.1 format output s.2.1 u ignoreError hr,
        hinit]
  · intro hr
    constructor
    · intro ev hev
      rcases mem_patchWithContext_trace c image reportFile patchedTag workingFolder scanner
        format output ignoreError ev hev with h | ⟨s, hs, h | h⟩
      · cases ev <;> simp [Event.isBuildWork] at h <;> rfl
      · rw [h]
        rfl
      · exact noDetection_report c s.1 reportFile s.2.2.1 format output s.2.1 s.2.2.2.1
          ignoreError hr ev h
    · intro extract lib
      exact swap_detection c extract lib image reportFile patchedTag workingFolder scanner
        format output ignoreError hr
  · rintro rfl s config fileBytes osType osVersion hs hcheck hinit hfile htype hversion
    have htrace := (resolveManager_live c s.2.2.1 s.2.2.2.1 config fileBytes osType
      osVersion hfile htype hversion).1
    have hwhole := patchWithContext_trace_ok c image "" patchedTag workingFolder scanner
      format output ignoreError s hs hcheck
    have hcb : ∀ ev, ev ∈ (resolveManager c "" s.2.2.1 s.2.2.2.1 config).trace →
        ev ∈ (patchWithContext c image "" patchedTag workingFolder scanner format output
          ignoreError).trace := by
      intro ev hev
      rw [hwhole]
      refine List.mem_append.2 (Or.inr (List.mem_cons_of_mem _ ?_))
      unfold buildCallback buildStages
      exact (mem_bind_trace _ _ _).2 (Or.inl ((mem_bind_trace _ _ _).2 (Or.inr ⟨config,
        by rw [callSend_out_ok]; exact hinit, (mem_bind_trace _ _ _).2 (Or.inl hev)⟩)))
    refine ⟨?_, hcb _ ?_, hcb _ ?_⟩
    · rw [resolvedOS_patchWithContext c image "" patchedTag workingFolder scanner format
        output ignoreError s hs hcheck,
        resolvedOS_afterManager c s.1 "" s.2.2.1 format output s.2.1 s.2.2.2.1 ignoreError
          config hinit, htrace]
      unfold resolvedOS
      rw [List.filterMap_append]
      have := resolvedOS_callSend_factory osType osVersion s.2.2.1
        (c.GetPackageManager osType osVersion config s.2.2.1) id
      unfold resolvedOS at this
      rw [this]
      rfl
    · rw [htrace]
      simp
    · rw [htrace]
      simp

end Dispatch

/-- Witness for C8: with the Debian report, the run on an Ubuntu image hands
`(debian, 11.6)` to the factory and is the same run when the image's os-release is that
of Alpine; without a report, the run on the Ubuntu image hands over the detected
`(ubuntu, 22.04)`. -/
theorem patchWithContext_dispatch_witness :
    resolvedOS (patchWithContext (scenario ubuntuRelease debianReport none [])
        "app:1" "report.json" "" "" "trivy" "openvex" "" false).trace =
      [("debian", "11.6")] ∧
    patchWithContext
        { scenario ubuntuRelease debianReport none [] with
          ExtractFileFromState := fun _ _ => .ok [],
          toDetectLib := (scenario alpineRelease debianReport none []).toDetectLib }
        "app:1" "report.json" "" "" "trivy" "openvex" "" false =
      patchWithContext (scenario ubuntuRelease debianReport none [])
        "app:1" "report.json" "" "" "trivy" "openvex" "" false ∧
    resolvedOS (patchWithContext (scenario ubuntuRelease debianReport none [])
        "app:1" "" "" "" "trivy" "openvex" "" false).trace =
      [("ubuntu", "22.04")] :=
  ⟨((patchWithContext_dispatch (scenario ubuntuRelease debianReport none [])
      "app:1" "report.json" "" "" "trivy" "openvex" "" false).1
      debianReport (by decide) rfl).2
      (.taggedReference ⟨"docker.io", "library/app"⟩ "1", "docker.io/library/app:1-patched",
        "/tmp/copa-1", some debianReport, none) () rfl rfl rfl,
   ((patchWithContext_dispatch (scenario ubuntuRelease debianReport none [])
      "app:1" "report.json" "" "" "trivy" "openvex" "" false).2.1 (by decide)).2
      (fun _ _ => .ok []) (scenario alpineRelease debianReport none []).toDetectLib,
   ((patchWithContext_dispatch (scenario ubuntuRelease debianReport none [])
      "app:1" "" "" "" "trivy" "openvex" "" false).2.2 rfl
      (.taggedReference ⟨"docker.io", "library/app"⟩ "1", "docker.io/library/app:1-patched",
        "/tmp/copa-1", none, none) () [] "ubuntu" "22.04" rfl rfl rfl rfl rfl rfl).1⟩

end Copa
